import Mathlib

/-!
Verification of the clerk email client's core subsystems against its
specification.  The Python modules `threading.py`, `imap_client.py`,
`cache.py`, `drafts.py`, `search.py`, `smtp_client.py`, `mcp_server.py`,
`api.py` and `config.py` are shallowly embedded below: pure functions become
Lean functions, stateful code becomes explicit state passing, machine floats
used as POSIX timestamps become `Int` seconds, and SQL queries over the
message table are interpreted over an explicit list of rows (SQLite `LIKE`
semantics — ASCII case folding and the `%`/`_` wildcards — are modelled
faithfully).  Claims about the specification are then proved or refuted
against these definitions.
-/

namespace Clerk

/-! ## Generic string helpers (kernel-computable replacements for `str` ops) -/

/-- Python `str.isspace` restricted to the ASCII whitespace characters that
occur in search queries and SQL text. -/
def isSpaceChar (c : Char) : Bool :=
  c = ' ' || c = '\t' || c = '\n' || c = '\r' || c = '\x0b' || c = '\x0c'

/-- Python `str.upper` (ASCII; `Char.toUpper` only maps a-z). -/
def toUpperStr (s : String) : String :=
  String.mk (s.data.map Char.toUpper)

/-- Python `str.lower` (ASCII; `Char.toLower` only maps A-Z). -/
def toLowerStr (s : String) : String :=
  String.mk (s.data.map Char.toLower)

/-- Python `str.strip()` on the characters of a string. -/
def trimChars (l : List Char) : List Char :=
  ((l.dropWhile isSpaceChar).reverse.dropWhile isSpaceChar).reverse

/-- Python `str.strip()`. -/
def trimStr (s : String) : String :=
  String.mk (trimChars s.data)

/-- Python `str.rstrip(";")`: remove all trailing semicolons. -/
def rstripSemis (s : String) : String :=
  String.mk ((s.data.reverse.dropWhile (fun c => c = ';')).reverse)

/-- Substring containment, Python's `needle in hay` on strings. -/
def infixOfChars (needle : List Char) : List Char → Bool
  | [] => needle.isPrefixOf []
  | c :: rest => needle.isPrefixOf (c :: rest) || infixOfChars needle rest

/-- Substring containment on strings. -/
def containsSub (hay needle : String) : Bool :=
  infixOfChars needle.data hay.data

/-- Lexicographic comparison of char lists (byte order on ASCII, matching
SQLite's memcmp TEXT collation and Python's `str` ordering for ASCII). -/
def leChars : List Char → List Char → Bool
  | [], _ => true
  | _ :: _, [] => false
  | a :: as, b :: bs =>
    if a.toNat < b.toNat then true
    else if b.toNat < a.toNat then false
    else leChars as bs

/-- String `≤` via `leChars`. -/
def leStr (a b : String) : Bool := leChars a.data b.data

/-- Insert into a list sorted by `le` (used to model `sorted`/`ORDER BY`). -/
def insertBy (le : α → α → Bool) (a : α) : List α → List α
  | [] => [a]
  | b :: rest => if le a b then a :: b :: rest else b :: insertBy le a rest

/-- Insertion sort by a boolean relation; stable, structural, and hence
kernel-computable.  Models Python `sorted` and SQL `ORDER BY`. -/
def sortBy (le : α → α → Bool) (l : List α) : List α :=
  l.foldr (insertBy le) []

/-- First-occurrence deduplication (models iteration over a Python `set`
built by successive insertion, and `GROUP_CONCAT(DISTINCT …)`). -/
def dedupFirstAux [DecidableEq α] (seen : List α) : List α → List α
  | [] => []
  | a :: rest =>
    if a ∈ seen then dedupFirstAux seen rest
    else a :: dedupFirstAux (a :: seen) rest

/-- First-occurrence deduplication. -/
def dedupFirst [DecidableEq α] (l : List α) : List α :=
  dedupFirstAux [] l

/-! ## SHA-256 (`hashlib.sha256` as both conv-id derivations use it)

A complete executable SHA-256 over `Nat` with explicit `% 2^32` reduction.
Validated below against the FIPS 180-4 test vectors for `""` and `"abc"`. -/

def add32 (a b : Nat) : Nat := (a + b) % 4294967296

def rotr32 (n x : Nat) : Nat :=
  ((x >>> n) ||| ((x <<< (32 - n)) % 4294967296)) % 4294967296

def not32 (x : Nat) : Nat := 4294967295 - x

def ssig0 (x : Nat) : Nat := (rotr32 7 x) ^^^ (rotr32 18 x) ^^^ (x >>> 3)

def ssig1 (x : Nat) : Nat := (rotr32 17 x) ^^^ (rotr32 19 x) ^^^ (x >>> 10)

def bsig0 (x : Nat) : Nat := (rotr32 2 x) ^^^ (rotr32 13 x) ^^^ (rotr32 22 x)

def bsig1 (x : Nat) : Nat := (rotr32 6 x) ^^^ (rotr32 11 x) ^^^ (rotr32 25 x)

def chFn (e f g : Nat) : Nat := (e &&& f) ^^^ ((not32 e) &&& g)

def majFn (a b c : Nat) : Nat := (a &&& b) ^^^ (a &&& c) ^^^ (b &&& c)

/-- The 64 SHA-256 round constants. -/
def sha256K : List Nat :=
  [1116352408, 1899447441, 3049323471, 3921009573, 961987163, 1508970993,
   2453635748, 2870763221, 3624381080, 310598401, 607225278, 1426881987,
   1925078388, 2162078206, 2614888103, 3248222580, 3835390401, 4022224774,
   264347078, 604807628, 770255983, 1249150122, 1555081692, 1996064986,
   2554220882, 2821834349, 2952996808, 3210313671, 3336571891, 3584528711,
   113926993, 338241895, 666307205, 773529912, 1294757372, 1396182291,
   1695183700, 1986661051, 2177026350, 2456956037, 2730485921, 2820302411,
   3259730800, 3345764771, 3516065817, 3600352804, 4094571909, 275423344,
   430227734, 506948616, 659060556, 883997877, 958139571, 1322822218,
   1537002063, 1747873779, 1955562222, 2024104815, 2227730452, 2361852424,
   2428436474, 2756734187, 3204031479, 3329325298]

/-- Working state of the compression function. -/
structure Hash8 where
  a : Nat
  b : Nat
  c : Nat
  d : Nat
  e : Nat
  f : Nat
  g : Nat
  hh : Nat
deriving Repr, DecidableEq

/-- SHA-256 initial hash value. -/
def sha256H0 : Hash8 :=
  ⟨1779033703, 3144134277, 1013904242, 2773480762,
   1359893119, 2600822924, 528734635, 1541459225⟩

/-- One round of the compression function. -/
def sha256Round (st : Hash8) (wk : Nat × Nat) : Hash8 :=
  let t1 := add32 st.hh (add32 (bsig1 st.e) (add32 (chFn st.e st.f st.g) (add32 wk.1 wk.2)))
  let t2 := add32 (bsig0 st.a) (majFn st.a st.b st.c)
  ⟨add32 t1 t2, st.a, st.b, st.c, add32 st.d t1, st.e, st.f, st.g⟩

/-- Extend the 16-word block into the 64-entry message schedule.  `wr` is the
schedule built so far, most recent word first. -/
def sha256Sched : Nat → List Nat → List Nat
  | 0, wr => wr
  | fuel + 1, wr =>
    sha256Sched fuel
      (add32 (add32 (ssig1 (wr.getD 1 0)) (wr.getD 6 0))
        (add32 (ssig0 (wr.getD 14 0)) (wr.getD 15 0)) :: wr)

/-- Group bytes into big-endian 32-bit words. -/
def beWords : List Nat → List Nat
  | b0 :: b1 :: b2 :: b3 :: rest =>
    (b0 * 16777216 + b1 * 65536 + b2 * 256 + b3) :: beWords rest
  | _ => []

/-- Process one 64-byte block. -/
def sha256Block (h : Hash8) (block : List Nat) : Hash8 :=
  let w := (sha256Sched 48 (beWords block).reverse).reverse
  let st := (w.zip sha256K).foldl sha256Round h
  ⟨add32 h.a st.a, add32 h.b st.b, add32 h.c st.c, add32 h.d st.d,
   add32 h.e st.e, add32 h.f st.f, add32 h.g st.g, add32 h.hh st.hh⟩

/-- Split into 64-byte chunks (fuel-driven so the kernel can evaluate it). -/
def chunk64 : Nat → List Nat → List (List Nat)
  | 0, _ => []
  | _, [] => []
  | fuel + 1, l => l.take 64 :: chunk64 fuel (l.drop 64)

/-- Big-endian bytes of the 64-bit message length. -/
def lenBytes64 (n : Nat) : List Nat :=
  [(n >>> 56) &&& 255, (n >>> 48) &&& 255, (n >>> 40) &&& 255, (n >>> 32) &&& 255,
   (n >>> 24) &&& 255, (n >>> 16) &&& 255, (n >>> 8) &&& 255, n &&& 255]

/-- Lower-case hex digit. -/
def hexDigit (n : Nat) : Char :=
  if n < 10 then Char.ofNat (48 + n) else Char.ofNat (87 + n)

/-- Eight hex digits of a 32-bit word. -/
def word8hex (x : Nat) : List Char :=
  [hexDigit ((x >>> 28) &&& 15), hexDigit ((x >>> 24) &&& 15),
   hexDigit ((x >>> 20) &&& 15), hexDigit ((x >>> 16) &&& 15),
   hexDigit ((x >>> 12) &&& 15), hexDigit ((x >>> 8) &&& 15),
   hexDigit ((x >>> 4) &&& 15), hexDigit (x &&& 15)]

/-- SHA-256 of a byte sequence, as the lower-case hex digest
(`hashlib.sha256(bytes).hexdigest()`). -/
def sha256hexBytes (msg : List Nat) : String :=
  let padded := msg ++ 128 :: List.replicate ((119 - msg.length % 64) % 64) 0
    ++ lenBytes64 (msg.length * 8)
  let final := (chunk64 padded.length padded).foldl sha256Block sha256H0
  String.mk (word8hex final.a ++ word8hex final.b ++ word8hex final.c ++
    word8hex final.d ++ word8hex final.e ++ word8hex final.f ++
    word8hex final.g ++ word8hex final.hh)

/-- UTF-8 encoding of a code point (Python `str.encode()`). -/
def utf8Bytes (c : Nat) : List Nat :=
  if c < 128 then [c]
  else if c < 2048 then [192 ||| (c >>> 6), 128 ||| (c &&& 63)]
  else if c < 65536 then
    [224 ||| (c >>> 12), 128 ||| ((c >>> 6) &&& 63), 128 ||| (c &&& 63)]
  else
    [240 ||| (c >>> 18), 128 ||| ((c >>> 12) &&& 63),
     128 ||| ((c >>> 6) &&& 63), 128 ||| (c &&& 63)]

/-- UTF-8 bytes of a string. -/
def strBytes (s : String) : List Nat :=
  (s.data.map (fun c => utf8Bytes c.toNat)).flatten

/-- `hashlib.sha256(s.encode()).hexdigest()`. -/
def sha256hexString (s : String) : String :=
  sha256hexBytes (strBytes s)

/-- FIPS 180-4 test vector: digest of the empty message. -/
theorem sha256hexString_empty :
    sha256hexString "" =
      "e3b0c44298fc1c149afbf4c8996fb92427ae41e4649b934ca495991b7852b855" := by
  rfl

/-- FIPS 180-4 test vector: digest of "abc". -/
theorem sha256hexString_abc :
    sha256hexString "abc" =
      "ba7816bf8f01cfea414140de5dae2223b00361a396177a9cb410ff61f20015ad" := by
  rfl

/-! ## Data model (`models.py`) -/

/-- `models.Address`. -/
structure Address where
  addr : String
  name : String := ""
deriving Repr, DecidableEq

/-- `models.Attachment` (metadata only). -/
structure Attachment where
  filename : String
  size : Nat
  content_type : String
deriving Repr, DecidableEq

/-- `models.Message`.  Dates are ISO-8601 UTC strings exactly as stored in
the `date_utc` column (SQLite compares them as text). -/
structure Message where
  message_id : String
  conv_id : String
  folder : String := "INBOX"
  account : String := ""
  from_ : Address
  to_ : List Address := []
  cc : List Address := []
  reply_to : List Address := []
  date : String
  subject : String := ""
  body_text : Option String := none
  body_html : Option String := none
  attachments : List Attachment := []
  flags : List String := []
  in_reply_to : Option String := none
  references : List String := []
deriving Repr, DecidableEq

/-- `Message.is_read`. -/
def Message.is_read (m : Message) : Bool := m.flags.contains "seen"

/-- `models.Conversation`. -/
structure Conversation where
  conv_id : String
  subject : String
  participants : List String := []
  message_count : Nat := 0
  unread_count : Nat := 0
  latest_date : String
  messages : List Message := []
  account : String := ""
deriving Repr, DecidableEq

/-- `models.ConversationSummary`. -/
structure ConversationSummary where
  conv_id : String
  subject : String
  participants : List String
  message_count : Nat
  unread_count : Nat
  latest_date : String
  snippet : String := ""
  account : String := ""
deriving Repr, DecidableEq

/-- `models.Draft`.  Timestamps are `Int` POSIX seconds. -/
structure Draft where
  draft_id : String
  account : String
  to_ : List Address
  cc : List Address := []
  bcc : List Address := []
  subject : String
  body_text : String
  body_html : Option String := none
  reply_to_conv_id : Option String := none
  in_reply_to : Option String := none
  references : List String := []
  created_at : Int := 0
  updated_at : Int := 0
deriving Repr, DecidableEq

/-- `models.SendResult` (the `timestamp` field plays no role in any claim
and is omitted from the embedding). -/
structure SendResult where
  success : Bool
  message_id : Option String := none
  error : Option String := none
deriving Repr, DecidableEq

/-! ## Configuration (`config.py`) -/

/-- `config.SmtpConfig`. -/
structure SmtpConfig where
  host : String
  port : Nat := 587
  username : String
  starttls : Bool := true
deriving Repr, DecidableEq

/-- `config.ImapConfig`. -/
structure ImapConfig where
  host : String
  port : Nat := 993
  username : String
  ssl : Bool := true
deriving Repr, DecidableEq

/-- `config.OAuthConfig` (`client_id_file` path kept as a string). -/
structure OAuthConfig where
  client_id_file : String
deriving Repr, DecidableEq

/-- `config.FromAddress`. -/
structure FromAddress where
  address : String
  name : String := ""
deriving Repr, DecidableEq

/-- Protocol variants of `AccountConfig.protocol`. -/
inductive Protocol where
  | imap
  | gmail
deriving Repr, DecidableEq

/-- `config.AccountConfig` (credential fields omitted: no claim touches
them). -/
structure AccountConfig where
  protocol : Protocol := Protocol.imap
  imap : Option ImapConfig := none
  smtp : Option SmtpConfig := none
  oauth : Option OAuthConfig := none
  from_ : FromAddress
deriving Repr, DecidableEq

/-- `config.SendConfig`. -/
structure SendConfig where
  require_confirmation : Bool := true
  rate_limit : Nat := 20
  blocked_recipients : List String := []
deriving Repr, DecidableEq

/-- `config.ClerkConfig` (`accounts` as an association list; the cache
section plays no role in any claim). -/
structure ClerkConfig where
  default_account : String := ""
  accounts : List (String × AccountConfig) := []
  send : SendConfig := {}
deriving Repr, DecidableEq

/-- `ClerkConfig.get_account`: resolve by name or default; raises
(`Except.error`) when the name is empty or unknown. -/
def ClerkConfig.get_account (cfg : ClerkConfig) (name : Option String) :
    Except String (String × AccountConfig) :=
  let n := name.getD cfg.default_account
  if n = "" then
    Except.error "No account specified and no default account configured"
  else
    match cfg.accounts.find? (fun p => p.1 = n) with
    | some p => Except.ok p
    | none => Except.error ("Account not found: " ++ n)

/-! ## Conversation-id derivations (`threading.py` and `imap_client.py`) -/

/-- `threading.compute_root_id`: the earliest message of the reference
chain, or the message itself. -/
def compute_root_id (message_id : String) (references : List String)
    (in_reply_to : Option String) : String :=
  match references with
  | r :: _ => r
  | [] =>
    match in_reply_to with
    | some irt => if irt = "" then message_id else irt
    | none => message_id

/-- `threading.compute_conv_id`: stable conversation id from the root
message id. -/
def compute_conv_id (root_message_id : String) : String :=
  (sha256hexString root_message_id).take 12

/-- `imap_client.compute_conv_id`: the ingest-time derivation, which inlines
the root selection. -/
def imap_compute_conv_id (message_id : String) (references : List String)
    (in_reply_to : Option String) : String :=
  let root :=
    match references with
    | r :: _ => r
    | [] =>
      match in_reply_to with
      | some irt => if irt = "" then message_id else irt
      | none => message_id
  (sha256hexString root).take 12

/-- C4: for every message, the conversation id is the first 12 hex
characters of the SHA-256 digest of the root id, which is `references[0]`
when `references` is non-empty, else `in_reply_to` when that is set (a
non-empty string), else `message_id`; and the ingest-time derivation
(`imap_client.compute_conv_id`) agrees with the threading-layer derivation
(`threading.compute_conv_id ∘ compute_root_id`) on every input. -/
theorem conv_id_derivations_agree (message_id : String)
    (references : List String) (in_reply_to : Option String) :
    imap_compute_conv_id message_id references in_reply_to =
      (sha256hexString (compute_root_id message_id references in_reply_to)).take 12 ∧
    imap_compute_conv_id message_id references in_reply_to =
      compute_conv_id (compute_root_id message_id references in_reply_to) := by
  cases references <;> cases in_reply_to <;>
    simp [imap_compute_conv_id, compute_root_id, compute_conv_id]

/-! ## Send pipeline (`smtp_client.py`) -/

/-- `smtp_client.RateLimiter`: timestamps of recorded sends, oldest first
(the Python deque is appended at the back and popped at the front). -/
structure RateLimiter where
  max_per_hour : Nat := 20
  timestamps : List Int := []
deriving Repr, DecidableEq

/-- The deque-pruning loop shared by `can_send` and `remaining`: pop
timestamps older than one hour from the front. -/
def RateLimiter.prune (rl : RateLimiter) (now : Int) : RateLimiter :=
  { rl with timestamps := rl.timestamps.dropWhile (fun t => t < now - 3600) }

/-- `RateLimiter.can_send` (returns the pruned limiter as well, since the
Python method mutates the deque). -/
def RateLimiter.can_send (rl : RateLimiter) (now : Int) : Bool × RateLimiter :=
  let p := rl.prune now
  (p.timestamps.length < p.max_per_hour, p)

/-- `RateLimiter.remaining`. -/
def RateLimiter.remaining (rl : RateLimiter) (now : Int) : Nat × RateLimiter :=
  let p := rl.prune now
  (p.max_per_hour - p.timestamps.length, p)

/-- `RateLimiter.record_send`. -/
def RateLimiter.record_send (rl : RateLimiter) (now : Int) : RateLimiter :=
  { rl with timestamps := rl.timestamps ++ [now] }

/-- The module-level `_rate_limiters` dict, account name to limiter. -/
abbrev LimiterMap := List (String × RateLimiter)

/-- `smtp_client.get_rate_limiter`: fetch the account's limiter, creating
one sized by `config.send.rate_limit` when absent. -/
def get_rate_limiter (cfg : ClerkConfig) (ls : LimiterMap) (account : String) :
    RateLimiter × LimiterMap :=
  match ls.find? (fun p => p.1 = account) with
  | some p => (p.2, ls)
  | none =>
    let rl : RateLimiter := { max_per_hour := cfg.send.rate_limit }
    (rl, ls ++ [(account, rl)])

/-- Write an account's limiter back into the map. -/
def setLimiter (ls : LimiterMap) (account : String) (rl : RateLimiter) : LimiterMap :=
  ls.map (fun p => if p.1 = account then (account, rl) else p)

/-- `smtp_client.check_send_allowed`.  Returns `(allowed, error_message)`
plus the updated limiter map; an `Except.error` models the uncaught
`ValueError` that `config.get_account` raises for an unknown account. -/
def check_send_allowed (cfg : ClerkConfig) (ls : LimiterMap) (draft : Draft)
    (account_name : String) (now : Int) :
    Except String ((Bool × Option String) × LimiterMap) :=
  let (limiter, ls) := get_rate_limiter cfg ls account_name
  let (ok, limiter) := limiter.can_send now
  let ls := setLimiter ls account_name limiter
  if !ok then
    let (rem, limiter) := limiter.remaining now
    Except.ok ((false, some ("Rate limit exceeded. " ++ toString rem ++
      " sends remaining this hour.")), setLimiter ls account_name limiter)
  else
    let blocked := cfg.send.blocked_recipients.map toLowerStr
    match (draft.to_ ++ draft.cc ++ draft.bcc).find?
        (fun a => blocked.contains (toLowerStr a.addr)) with
    | some a =>
      Except.ok ((false, some ("Recipient " ++ a.addr ++ " is blocked")), ls)
    | none =>
      match cfg.get_account (some account_name) with
      | Except.error e => Except.error e
      | Except.ok _ =>
        if draft.account ≠ account_name then
          Except.ok ((false, some ("Draft account \'" ++ draft.account ++
            "\' doesn\'t match \'" ++ account_name ++ "\'")), ls)
        else
          Except.ok ((true, none), ls)

/-- One `send_log` row (`cache.log_send`). -/
structure SendLogRow where
  timestamp : Int
  account : String
  to_ : List Address
  cc : List Address
  bcc : List Address
  subject : String
  message_id : Option String
deriving Repr, DecidableEq

/-- The mutable state that the send pipeline touches: the loaded config,
the draft table, the per-account rate limiters and the append-only send
log. -/
structure SmtpWorld where
  config : ClerkConfig
  drafts : List Draft
  limiters : LimiterMap := []
  send_log : List SendLogRow := []
deriving Repr, DecidableEq

/-- `DraftManager.get`. -/
def draftGet (drafts : List Draft) (draft_id : String) : Option Draft :=
  drafts.find? (fun d => d.draft_id = draft_id)

/-- `DraftManager.delete`. -/
def draftDelete (drafts : List Draft) (draft_id : String) : List Draft :=
  drafts.filter (fun d => ¬ d.draft_id = draft_id)

/-- `smtp_client.send_draft`.  `dispatch` stands for `SmtpClient.send`
(the network); the returned `Bool` records whether dispatch was invoked.
An `Except.error` again models an uncaught exception. -/
def send_draft (w : SmtpWorld) (draft_id : String)
    (account_name : Option String) (dispatch : Draft → SendResult)
    (now : Int) : Except String (SendResult × SmtpWorld × Bool) :=
  match draftGet w.drafts draft_id with
  | none =>
    Except.ok (⟨false, none, some ("Draft not found: " ++ draft_id)⟩, w, false)
  | some draft =>
    let acct := account_name.getD draft.account
    match w.config.get_account (some acct) with
    | Except.error e => Except.ok (⟨false, none, some e⟩, w, false)
    | Except.ok (name, _) =>
      match check_send_allowed w.config w.limiters draft name now with
      | Except.error e => Except.error e
      | Except.ok ((allowed, error), ls) =>
        let w := { w with limiters := ls }
        if !allowed then
          Except.ok (⟨false, none, error⟩, w, false)
        else
          let result := dispatch draft
          if result.success then
            let (limiter, ls) := get_rate_limiter w.config w.limiters name
            let ls := setLimiter ls name (limiter.record_send now)
            let row : SendLogRow :=
              ⟨now, name, draft.to_, draft.cc, draft.bcc, draft.subject,
                result.message_id⟩
            Except.ok (result,
              { w with limiters := ls, send_log := w.send_log ++ [row],
                       drafts := draftDelete w.drafts draft_id }, true)
          else
            Except.ok (result, w, true)

/-! ## Claim C1: the layered gates of `check_send_allowed` -/

/-- The sliding-window counter of the amended claim: recorded sends of the
account within the last hour. -/
def windowCount (ls : LimiterMap) (account : String) (now : Int) : Nat :=
  match ls.find? (fun p => p.1 = account) with
  | some p => (p.2.timestamps.filter (fun t => ! decide (t < now - 3600))).length
  | none => 0

/-- The limit the account's limiter enforces (its creation-time
`rate_limit` when it already exists, the configured one otherwise). -/
def windowMax (cfg : ClerkConfig) (ls : LimiterMap) (account : String) : Nat :=
  match ls.find? (fun p => p.1 = account) with
  | some p => p.2.max_per_hour
  | none => cfg.send.rate_limit

/-- The three layered gates of the amended claim C1, written directly from
its words: reject when the sliding 1-hour window counter is at or above the
limit; else reject the first recipient of to/cc/bcc whose address is
blocked case-insensitively; else reject when the draft's account differs
from the target account; else allow.  (No configuration-sanity gate.) -/
def check_send_allowed_spec (cfg : ClerkConfig) (ls : LimiterMap)
    (draft : Draft) (account_name : String) (now : Int) : Bool × Option String :=
  if windowMax cfg ls account_name ≤ windowCount ls account_name now then
    (false, some ("Rate limit exceeded. " ++
      toString (windowMax cfg ls account_name - windowCount ls account_name now) ++
      " sends remaining this hour."))
  else
    match (draft.to_ ++ draft.cc ++ draft.bcc).find?
        (fun a => (cfg.send.blocked_recipients.map toLowerStr).contains
          (toLowerStr a.addr)) with
    | some a => (false, some ("Recipient " ++ a.addr ++ " is blocked"))
    | none =>
      if draft.account ≠ account_name then
        (false, some ("Draft account \'" ++ draft.account ++
          "\' doesn\'t match \'" ++ account_name ++ "\'"))
      else
        (true, none)

/-- On a list sorted ascending, popping the stale prefix is the same as
filtering out every stale element. -/
theorem dropWhile_eq_filter_of_sorted (c : Int) :
    ∀ l : List Int, l.Pairwise (· ≤ ·) →
      l.dropWhile (fun t => decide (t < c)) = l.filter (fun t => ! decide (t < c)) := by
  intro l
  induction l with
  | nil => intro _; rfl
  | cons a l ih =>
    intro hp
    rw [List.pairwise_cons] at hp
    by_cases ha : a < c
    · simp [List.dropWhile, List.filter, ha, ih hp.2]
    · have hall : ∀ b ∈ l, (fun t => ! decide (t < c)) b = true := by
        intro b hb
        have : a ≤ b := hp.1 b hb
        simp only [Bool.not_eq_true']
        simp only [decide_eq_false_iff_not]
        omega
      simp [List.dropWhile, List.filter, ha, List.filter_eq_self.mpr hall]

/-- A concrete account whose protocol is `imap` but whose SMTP
configuration is missing. -/
def acctMissingSmtp : AccountConfig :=
  { protocol := Protocol.imap, smtp := none, from_ := ⟨"me@example.com", ""⟩ }

/-- A configuration holding only `acctMissingSmtp`. -/
def cfgMissingSmtp : ClerkConfig :=
  { default_account := "a", accounts := [("a", acctMissingSmtp)], send := {} }

/-- A draft on that account addressed to an unblocked recipient. -/
def draftToBob : Draft :=
  { draft_id := "draft_1", account := "a", to_ := [⟨"bob@example.com", ""⟩],
    subject := "hi", body_text := "body" }

/-- C1 counterexample: the target account's protocol is `imap` and its SMTP
configuration is missing, every other gate passes, yet `check_send_allowed`
returns ok — so the claimed fourth gate (configuration sanity) does not
exist in the function. -/
theorem check_send_allowed_no_config_gate :
    acctMissingSmtp.protocol = Protocol.imap ∧ acctMissingSmtp.smtp = none ∧
    ∃ ls, check_send_allowed cfgMissingSmtp [] draftToBob "a" 0 =
      Except.ok ((true, none), ls) :=
  ⟨rfl, rfl, ⟨_, rfl⟩⟩

/-- C1 (amended): `check_send_allowed` applies exactly three layered gates
in order — sliding-window rate limit, case-insensitive recipient blocklist,
draft/account match — returning not-ok with the corresponding reason
exactly when the first of them fires, and performs no configuration-sanity
check.  Stated as equivalence with `check_send_allowed_spec`, the gate
chain written from the amended claim, for every state whose recorded
timestamps are ascending (as produced by `record_send`). -/
theorem check_send_allowed_three_gates (cfg : ClerkConfig) (ls : LimiterMap)
    (draft : Draft) (name : String) (now : Int)
    (hacct : ∃ p, cfg.get_account (some name) = Except.ok p)
    (hsorted : (get_rate_limiter cfg ls name).1.timestamps.Pairwise (· ≤ ·)) :
    ∃ ls', check_send_allowed cfg ls draft name now =
      Except.ok (check_send_allowed_spec cfg ls draft name now, ls') := by
  obtain ⟨p, hp⟩ := hacct
  unfold check_send_allowed check_send_allowed_spec windowCount windowMax
  unfold get_rate_limiter at hsorted ⊢
  cases hfind : ls.find? (fun q => q.1 = name) with
  | none =>
    simp only [hfind] at hsorted ⊢
    simp only [RateLimiter.can_send, RateLimiter.prune, RateLimiter.remaining,
      List.dropWhile_nil, List.filter_nil, List.length_nil]
    by_cases hmax : cfg.send.rate_limit = 0
    · simp [hmax]
    · have h0 : 0 < cfg.send.rate_limit := by omega
      have h1 : ¬ cfg.send.rate_limit ≤ 0 := by omega
      simp only [h0, h1, decide_eq_true_eq, if_false, if_true, decide_True,
        Bool.not_true, Bool.false_eq_true, if_neg h1]
      cases hblk : (draft.to_ ++ draft.cc ++ draft.bcc).find?
          (fun a => (cfg.send.blocked_recipients.map toLowerStr).contains
            (toLowerStr a.addr)) with
      | some a => simp [hblk]
      | none =>
        simp only [hblk, hp]
        by_cases hne : draft.account ≠ name
        · simp [hne]
        · simp [hne]
  | some q =>
    simp only [hfind] at hsorted ⊢
    simp only [RateLimiter.can_send, RateLimiter.prune, RateLimiter.remaining]
    have hfsorted : (q.2.timestamps.filter
        (fun t => ! decide (t < now - 3600))).Pairwise (· ≤ ·) :=
      List.Pairwise.sublist (List.filter_sublist q.2.timestamps) hsorted
    have h2 : (q.2.timestamps.filter
          (fun t => ! decide (t < now - 3600))).dropWhile
          (fun t => decide (t < now - 3600)) =
        q.2.timestamps.filter (fun t => ! decide (t < now - 3600)) := by
      rw [dropWhile_eq_filter_of_sorted (now - 3600) _ hfsorted]
      exact List.filter_eq_self.mpr (fun b hb => (List.mem_filter.mp hb).2)
    simp only [dropWhile_eq_filter_of_sorted (now - 3600) q.2.timestamps hsorted, h2]
    by_cases hlen : (q.2.timestamps.filter
        (fun t => ! decide (t < now - 3600))).length < q.2.max_per_hour
    · have h1 : ¬ q.2.max_per_hour ≤ (q.2.timestamps.filter
          (fun t => ! decide (t < now - 3600))).length := by omega
      simp only [hlen, h1, decide_eq_true_eq, if_false, if_true, decide_True,
        Bool.not_true, Bool.false_eq_true, if_neg h1]
      cases hblk : (draft.to_ ++ draft.cc ++ draft.bcc).find?
          (fun a => (cfg.send.blocked_recipients.map toLowerStr).contains
            (toLowerStr a.addr)) with
      | some a => simp [hblk]
      | none =>
        simp only [hblk, hp]
        by_cases hne : draft.account ≠ name
        · simp [hne]
        · simp [hne]
    · have h1 : q.2.max_per_hour ≤ (q.2.timestamps.filter
          (fun t => ! decide (t < now - 3600))).length := by omega
      simp [hlen, h1]

/-- Witness for C1's amended theorem at a concrete input. -/
theorem check_send_allowed_three_gates_witness :
    ∃ ls', check_send_allowed cfgMissingSmtp [] draftToBob "a" 0 =
      Except.ok (check_send_allowed_spec cfgMissingSmtp [] draftToBob "a" 0, ls') :=
  check_send_allowed_three_gates cfgMissingSmtp [] draftToBob "a" 0
    ⟨("a", acctMissingSmtp), rfl⟩ (by decide)

/-! ## Claim C3: effects of `send_draft` on success and failure -/

/-- Updating an account's limiter then looking it up finds exactly the
update. -/
theorem find?_setLimiter (ls : LimiterMap) (name : String) (rl : RateLimiter) :
    (setLimiter ls name rl).find? (fun p => p.1 = name) =
      (ls.find? (fun p => p.1 = name)).map (fun _ => (name, rl)) := by
  induction ls with
  | nil => rfl
  | cons hd tl ih =>
    by_cases h : hd.1 = name
    · simp [setLimiter, h]
    · simp only [setLimiter, List.map_cons, if_neg h]
      rw [List.find?_cons_of_neg _ (by simpa using h),
        List.find?_cons_of_neg _ (by simpa using h)]
      exact ih

/-- `setLimiter` is the identity when the account has no entry. -/
theorem setLimiter_of_absent (ls : LimiterMap) (name : String) (rl : RateLimiter)
    (h : ls.find? (fun p => p.1 = name) = none) : setLimiter ls name rl = ls := by
  induction ls with
  | nil => rfl
  | cons hd tl ih =>
    rw [List.find?_cons] at h
    cases hcond : (decide (hd.1 = name)) with
    | true => simp [hcond] at h
    | false =>
      simp only [hcond] at h
      simp only [setLimiter, List.map_cons,
        if_neg (by simpa using hcond), List.map] at ih ⊢
      rw [ih h]

/-- `find?` skips a prefix in which nothing matches. -/
theorem find?_append_of_none {α : Type} {p : α → Bool} (l1 l2 : List α)
    (h : l1.find? p = none) : (l1 ++ l2).find? p = l2.find? p := by
  induction l1 with
  | nil => rfl
  | cons hd tl ih =>
    rw [List.find?_cons] at h
    cases hcond : p hd with
    | true => simp [hcond] at h
    | false =>
      simp only [hcond] at h
      rw [List.cons_append, List.find?_cons_of_neg _ (by simp [hcond]), ih h]

/-- Recording a send appends the timestamp to the account's window. -/
theorem get_rate_limiter_record (cfg : ClerkConfig) (ls : LimiterMap)
    (name : String) (now : Int) :
    (get_rate_limiter cfg
        (setLimiter (get_rate_limiter cfg ls name).2 name
          ((get_rate_limiter cfg ls name).1.record_send now)) name).1.timestamps =
      (get_rate_limiter cfg ls name).1.timestamps ++ [now] := by
  unfold get_rate_limiter
  cases hfind : ls.find? (fun p => p.1 = name) with
  | some p =>
    simp only [hfind]
    rw [find?_setLimiter]
    simp [hfind, RateLimiter.record_send]
  | none =>
    simp only [hfind]
    have hset : setLimiter (ls ++ [(name, { max_per_hour := cfg.send.rate_limit })])
        name (RateLimiter.record_send { max_per_hour := cfg.send.rate_limit } now) =
        ls ++ [(name, RateLimiter.record_send { max_per_hour := cfg.send.rate_limit } now)] := by
      unfold setLimiter
      rw [List.map_append]
      rw [show (ls.map fun p => if p.1 = name then (name,
          RateLimiter.record_send { max_per_hour := cfg.send.rate_limit } now) else p) =
          setLimiter ls name (RateLimiter.record_send { max_per_hour := cfg.send.rate_limit } now)
          from rfl]
      rw [setLimiter_of_absent ls name _ hfind]
      simp
    rw [hset, find?_append_of_none ls _ hfind]
    simp [RateLimiter.record_send]

/-- A deleted draft id is no longer retrievable. -/
theorem draftGet_draftDelete (drafts : List Draft) (draft_id : String) :
    draftGet (draftDelete drafts draft_id) draft_id = none := by
  apply List.find?_eq_none.mpr
  intro d hd
  have := (List.mem_filter.mp hd).2
  simpa using this

/-- C3: for a stored draft on a resolvable account that passes the safety
gate, a successful SMTP dispatch makes `send_draft` record the send in the
account's rate limiter (the timestamp is appended to its window), append
exactly one `send_log` row carrying the outgoing Message-ID, and delete the
draft; a failed dispatch returns the (unsuccessful) dispatch result and
leaves drafts, send log and limiters exactly as the gate check left them —
no limiter record, no log row, and the draft still retrievable. -/
theorem send_draft_effects (w : SmtpWorld) (draft_id : String)
    (account_name : Option String) (dispatch : Draft → SendResult) (now : Int)
    (draft : Draft) (name : String) (acct : AccountConfig) (ls : LimiterMap)
    (hd : draftGet w.drafts draft_id = some draft)
    (hacct : w.config.get_account (some (account_name.getD draft.account)) =
      Except.ok (name, acct))
    (hallowed : check_send_allowed w.config w.limiters draft name now =
      Except.ok ((true, none), ls)) :
    ((dispatch draft).success = true →
      send_draft w draft_id account_name dispatch now =
        Except.ok (dispatch draft,
          { config := w.config,
            drafts := draftDelete w.drafts draft_id,
            limiters := setLimiter (get_rate_limiter w.config ls name).2 name
              ((get_rate_limiter w.config ls name).1.record_send now),
            send_log := w.send_log ++
              [⟨now, name, draft.to_, draft.cc, draft.bcc, draft.subject,
                (dispatch draft).message_id⟩] }, true) ∧
      (get_rate_limiter w.config
          (setLimiter (get_rate_limiter w.config ls name).2 name
            ((get_rate_limiter w.config ls name).1.record_send now)) name).1.timestamps =
        (get_rate_limiter w.config ls name).1.timestamps ++ [now] ∧
      draftGet (draftDelete w.drafts draft_id) draft_id = none) ∧
    ((dispatch draft).success = false →
      send_draft w draft_id account_name dispatch now =
        Except.ok (dispatch draft, { w with limiters := ls }, true) ∧
      draftGet w.drafts draft_id = some draft) := by
  constructor
  · intro hsucc
    refine ⟨?_, get_rate_limiter_record w.config ls name now,
      draftGet_draftDelete w.drafts draft_id⟩
    unfold send_draft
    simp only [hd, hacct, hallowed, hsucc]
    rfl
  · intro hfail
    refine ⟨?_, hd⟩
    unfold send_draft
    simp only [hd, hacct, hallowed, hfail]
    rfl

/-- A concrete send world for the C3 witness. -/
def worldW : SmtpWorld :=
  { config := cfgMissingSmtp, drafts := [draftToBob] }

/-- A dispatch stub that always succeeds with a fixed Message-ID. -/
def dispatchOk : Draft → SendResult := fun _ => ⟨true, some "<mid@example.com>", none⟩

/-- Witness for C3 at a concrete world: the success branch applied to a
dispatch that succeeds. -/
theorem send_draft_effects_witness :
    send_draft worldW "draft_1" none dispatchOk 0 =
      Except.ok (dispatchOk draftToBob,
        { config := worldW.config,
          drafts := draftDelete worldW.drafts "draft_1",
          limiters := setLimiter
            (get_rate_limiter worldW.config [("a", { max_per_hour := 20, timestamps := [] })] "a").2 "a"
            ((get_rate_limiter worldW.config [("a", { max_per_hour := 20, timestamps := [] })] "a").1.record_send 0),
          send_log := worldW.send_log ++
            [⟨0, "a", draftToBob.to_, draftToBob.cc, draftToBob.bcc,
              draftToBob.subject, (dispatchOk draftToBob).message_id⟩] }, true) :=
  ((send_draft_effects worldW "draft_1" none dispatchOk 0 draftToBob "a"
    acctMissingSmtp [("a", { max_per_hour := 20, timestamps := [] })]
    rfl rfl rfl).1 rfl).1

/-! ## Confirmation tokens (`mcp_server.py`) -/

/-- The module-level `_confirmation_tokens` dict:
`draft_id ↦ (token, expiry_timestamp)`. -/
abbrev TokenStore := List (String × String × Int)

/-- Dict assignment `_confirmation_tokens[draft_id] = (token, expiry)`. -/
def tokenInsert (ts : TokenStore) (draft_id token : String) (expiry : Int) :
    TokenStore :=
  if (ts.find? (fun p => p.1 = draft_id)).isSome then
    ts.map (fun p => if p.1 = draft_id then (draft_id, token, expiry) else p)
  else
    ts ++ [(draft_id, token, expiry)]

/-- Dict deletion `del _confirmation_tokens[draft_id]`. -/
def tokenDelete (ts : TokenStore) (draft_id : String) : TokenStore :=
  ts.filter (fun p => ¬ p.1 = draft_id)

/-- Dict lookup. -/
def tokenLookup (ts : TokenStore) (draft_id : String) :
    Option (String × String × Int) :=
  ts.find? (fun p => p.1 = draft_id)

/-- `CONFIRMATION_TOKEN_EXPIRY_SECONDS`. -/
def CONFIRMATION_TOKEN_EXPIRY_SECONDS : Int := 300

/-- `secrets.token_hex`: two lower-case hex digits per random byte. -/
def token_hex (randomBytes : List Nat) : String :=
  String.mk ((randomBytes.map
    (fun b => [hexDigit ((b >>> 4) &&& 15), hexDigit (b &&& 15)])).flatten)

/-- `mcp_server._generate_confirmation_token`; the random token value is a
parameter. -/
def generate_confirmation_token (ts : TokenStore) (draft_id : String)
    (token : String) (now : Int) : String × TokenStore :=
  (token, tokenInsert ts draft_id token (now + CONFIRMATION_TOKEN_EXPIRY_SECONDS))

/-- `mcp_server._validate_confirmation_token`: `(valid, error_message)` plus
the updated store. -/
def validate_confirmation_token (ts : TokenStore) (draft_id token : String)
    (now : Int) : (Bool × Option String) × TokenStore :=
  match tokenLookup ts draft_id with
  | none =>
    ((false, some "No confirmation token found. Call clerk_send with confirm=false first."), ts)
  | some entry =>
    if now > entry.2.2 then
      ((false, some "Confirmation token expired. Call clerk_send with confirm=false to get a new one."),
        tokenDelete ts draft_id)
    else if ¬ token = entry.2.1 then
      ((false, some "Invalid confirmation token."), ts)
    else
      ((true, none), tokenDelete ts draft_id)

/-- `mcp_server._cleanup_expired_tokens`. -/
def cleanup_expired_tokens (ts : TokenStore) (now : Int) : TokenStore :=
  ts.filter (fun p => ¬ now > p.2.2)

/-! ## Claim C2: the confirmation-token lifecycle -/

/-- C2 counterexample: a token issued at time 0 still validates at exactly
300 seconds — `time.time() > expiry` is a strict comparison — refuting the
claim that validation "at or after 300 seconds from issuance" fails. -/
theorem confirmation_token_validates_at_300s :
    (validate_confirmation_token
      (generate_confirmation_token [] "d1" "t0ken" 0).2 "d1" "t0ken" 300).1 =
      (true, none) := by
  rfl

/-- Replacing a key's value then finding the key yields the new value. -/
theorem find?_replaceKey {β : Type} (ls : List (String × β)) (k : String) (v : β) :
    (ls.map (fun p => if p.1 = k then (k, v) else p)).find? (fun p => p.1 = k) =
      (ls.find? (fun p => p.1 = k)).map (fun _ => (k, v)) := by
  induction ls with
  | nil => rfl
  | cons hd tl ih =>
    by_cases h : hd.1 = k
    · simp [h]
    · simp only [List.map_cons, if_neg h]
      rw [List.find?_cons_of_neg _ (by simpa using h),
        List.find?_cons_of_neg _ (by simpa using h)]
      exact ih

/-- Generating a token stores it keyed by the draft id with a 300-second
expiry. -/
theorem tokenLookup_generate (ts : TokenStore) (d tok : String) (now : Int) :
    tokenLookup (generate_confirmation_token ts d tok now).2 d =
      some (d, tok, now + 300) := by
  unfold generate_confirmation_token tokenInsert tokenLookup
    CONFIRMATION_TOKEN_EXPIRY_SECONDS
  cases hfind : ts.find? (fun p => p.1 = d) with
  | some p =>
    simp only [hfind, Option.isSome_some, if_true]
    rw [find?_replaceKey ts d (tok, now + 300), hfind]
    rfl
  | none =>
    simp only [hfind, Option.isSome_none, Bool.false_eq_true, if_false]
    rw [find?_append_of_none ts _ hfind]
    simp

/-- A deleted key is gone from the token store. -/
theorem tokenLookup_tokenDelete (ts : TokenStore) (d : String) :
    tokenLookup (tokenDelete ts d) d = none := by
  apply List.find?_eq_none.mpr
  intro p hp
  have := (List.mem_filter.mp hp).2
  simpa using this

/-- `token_hex` yields two hex characters per byte. -/
theorem token_hex_length (bs : List Nat) : (token_hex bs).length = 2 * bs.length := by
  unfold token_hex
  show (List.flatten _).length = 2 * bs.length
  induction bs with
  | nil => rfl
  | cons b rest ih =>
    simp only [List.map_cons, List.flatten_cons, List.length_append, ih,
      List.length_cons]
    simp
    omega

/-- `hexDigit` of a nibble is a lower-case hex character. -/
theorem hexDigit_mem_hex (n : Nat) (h : n < 16) :
    hexDigit n ∈ ("0123456789abcdef").data := by
  interval_cases n <;> decide

/-- C2 (amended): a confirmation token generated in step 1 is a
32-hex-character value stored keyed by `draft_id` with expiry
`issuance + 300` seconds, and validates exactly once: a successful
validation removes the token and a second validation fails, a validation
with the wrong `draft_id` fails, and a validation strictly after 300
seconds from issuance fails — while a validation at exactly 300 seconds
still succeeds (the code's expiry comparison `time.time() > expiry` is
strict). -/
theorem confirmation_token_lifecycle :
    (∀ bs : List Nat, bs.length = 16 →
      (token_hex bs).length = 32 ∧
      ∀ c ∈ (token_hex bs).data, c ∈ ("0123456789abcdef").data) ∧
    (∀ ts d tok now, tokenLookup (generate_confirmation_token ts d tok now).2 d =
      some (d, tok, now + 300)) ∧
    (∀ ts d tok now res ts',
      validate_confirmation_token ts d tok now = (res, ts') → res.1 = true →
        tokenLookup ts' d = none ∧
        ∀ tok' now', (validate_confirmation_token ts' d tok' now').1.1 = false) ∧
    (∀ d tok now d' tok' now', ¬ d' = d →
      (validate_confirmation_token (generate_confirmation_token [] d tok now).2
        d' tok' now').1.1 = false) ∧
    (∀ d tok now now', now' > now + 300 →
      (validate_confirmation_token (generate_confirmation_token [] d tok now).2
        d tok now').1.1 = false) ∧
    (∀ d tok now,
      (validate_confirmation_token (generate_confirmation_token [] d tok now).2
        d tok (now + 300)).1 = (true, none)) := by
  refine ⟨?_, ?_, ?_, ?_, ?_, ?_⟩
  · intro bs hlen
    refine ⟨by rw [token_hex_length, hlen], ?_⟩
    intro c hc
    unfold token_hex at hc
    change c ∈ List.flatten _ at hc
    obtain ⟨l, hl, hcl⟩ := List.mem_flatten.mp hc
    obtain ⟨b, _, hb⟩ := List.mem_map.mp hl
    subst hb
    simp only [List.mem_cons, List.not_mem_nil, or_false] at hcl
    rcases hcl with h | h
    · exact h ▸ hexDigit_mem_hex _ (by
        have := Nat.and_le_right (n := b >>> 4) (m := 15); omega)
    · exact h ▸ hexDigit_mem_hex _ (by
        have := Nat.and_le_right (n := b) (m := 15); omega)
  · exact tokenLookup_generate
  · intro ts d tok now res ts' hval hres
    cases hlook : tokenLookup ts d with
    | none =>
      simp only [validate_confirmation_token, hlook] at hval
      obtain ⟨h1, h2⟩ := Prod.mk.inj hval
      rw [← h1] at hres
      simp at hres
    | some entry =>
      simp only [validate_confirmation_token, hlook] at hval
      by_cases hexp : now > entry.2.2
      · rw [if_pos hexp] at hval
        obtain ⟨h1, h2⟩ := Prod.mk.inj hval
        rw [← h1] at hres
        simp at hres
      · rw [if_neg hexp] at hval
        by_cases htok : ¬ tok = entry.2.1
        · rw [if_pos htok] at hval
          obtain ⟨h1, h2⟩ := Prod.mk.inj hval
          rw [← h1] at hres
          simp at hres
        · rw [if_neg htok] at hval
          obtain ⟨h1, h2⟩ := Prod.mk.inj hval
          subst h2
          refine ⟨tokenLookup_tokenDelete ts d, ?_⟩
          intro tok' now'
          simp only [validate_confirmation_token, tokenLookup_tokenDelete ts d]
  · intro d tok now d' tok' now' hne
    have hs : tokenLookup (generate_confirmation_token [] d tok now).2 d' = none := by
      unfold generate_confirmation_token tokenInsert tokenLookup
      simp only [List.find?_nil, Option.isSome_none, Bool.false_eq_true, if_false,
        List.nil_append]
      rw [List.find?_cons_of_neg]
      · rfl
      · simp only [decide_eq_true_eq]
        intro h
        exact hne h.symm
    simp only [validate_confirmation_token, hs]
  · intro d tok now now' hlate
    have hs : tokenLookup (generate_confirmation_token [] d tok now).2 d =
        some (d, tok, now + 300) := tokenLookup_generate [] d tok now
    simp only [validate_confirmation_token, hs]
    rw [if_pos hlate]
  · intro d tok now
    have hs : tokenLookup (generate_confirmation_token [] d tok now).2 d =
        some (d, tok, now + 300) := tokenLookup_generate [] d tok now
    simp only [validate_confirmation_token, hs]
    rw [if_neg (by omega), if_neg (by simp)]

/-- Witness for C2's amended theorem: all hypothesised parts applied at
concrete inputs. -/
theorem confirmation_token_lifecycle_witness :
    (token_hex (List.replicate 16 171)).length = 32 ∧
    (validate_confirmation_token (generate_confirmation_token [] "d1" "tk" 0).2
      "d2" "tk" 0).1.1 = false ∧
    (validate_confirmation_token (generate_confirmation_token [] "d1" "tk" 0).2
      "d1" "tk" 301).1.1 = false :=
  ⟨(confirmation_token_lifecycle.1 (List.replicate 16 171) rfl).1,
   confirmation_token_lifecycle.2.2.2.1 "d1" "tk" 0 "d2" "tk" 0 (by decide),
   confirmation_token_lifecycle.2.2.2.2.1 "d1" "tk" 0 301 (by decide)⟩

/-! ## String orders used to model `sorted`, `ORDER BY`, `MAX`/`MIN` -/

/-- String order as a proposition (codepoint-lexicographic, which is byte
order on the ASCII ids and ISO dates involved). -/
def strLe (a b : String) : Prop := leChars a.data b.data = true

instance : DecidableRel strLe :=
  fun a b => inferInstanceAs (Decidable (leChars a.data b.data = true))

/-- `leChars` is total. -/
theorem leChars_total : ∀ a b : List Char, leChars a b = true ∨ leChars b a = true := by
  intro a
  induction a with
  | nil => intro b; left; rfl
  | cons x xs ih =>
    intro b
    cases b with
    | nil => right; rfl
    | cons y ys =>
      by_cases h1 : x.toNat < y.toNat
      · left; simp [leChars, h1]
      · by_cases h2 : y.toNat < x.toNat
        · right; simp [leChars, h2]
        · have := ih ys
          rcases this with h | h
          · left; simp [leChars, h1, h2, h]
          · right; simp [leChars, h1, h2, h]

/-- `leChars` is transitive. -/
theorem leChars_trans : ∀ a b c : List Char,
    leChars a b = true → leChars b c = true → leChars a c = true := by
  intro a
  induction a with
  | nil => intro b c _ _; rfl
  | cons x xs ih =>
    intro b c hab hbc
    cases b with
    | nil => simp [leChars] at hab
    | cons y ys =>
      cases c with
      | nil => simp [leChars] at hbc
      | cons z zs =>
        simp only [leChars] at hab hbc ⊢
        by_cases hxy : x.toNat < y.toNat
        · by_cases hyz : y.toNat < z.toNat
          · rw [if_pos (by omega)]
          · rw [if_neg hyz] at hbc
            by_cases hzy : z.toNat < y.toNat
            · rw [if_pos hzy] at hbc
              exact absurd hbc (by simp)
            · rw [if_neg hzy] at hbc
              rw [if_pos (by omega)]
        · rw [if_neg hxy] at hab
          by_cases hyx : y.toNat < x.toNat
          · rw [if_pos hyx] at hab
            exact absurd hab (by simp)
          · rw [if_neg hyx] at hab
            by_cases hyz : y.toNat < z.toNat
            · rw [if_pos (by omega)]
            · rw [if_neg hyz] at hbc
              by_cases hzy : z.toNat < y.toNat
              · rw [if_pos hzy] at hbc
                exact absurd hbc (by simp)
              · rw [if_neg hzy] at hbc
                rw [if_neg (by omega), if_neg (by omega)]
                exact ih ys zs hab hbc

instance : IsTotal String strLe := ⟨fun a b => leChars_total a.data b.data⟩

instance : IsTrans String strLe :=
  ⟨fun a b c hab hbc => leChars_trans a.data b.data c.data hab hbc⟩

/-- Date-ascending order on messages (`ORDER BY date_utc ASC`). -/
def msgAscLe (a b : Message) : Prop := strLe a.date b.date

instance : DecidableRel msgAscLe :=
  fun a b => inferInstanceAs (Decidable (strLe a.date b.date))

instance : IsTotal Message msgAscLe := ⟨fun a b => IsTotal.total a.date b.date⟩

instance : IsTrans Message msgAscLe :=
  ⟨fun _ _ _ hab hbc => IsTrans.trans (r := strLe) _ _ _ hab hbc⟩

/-- Date-descending order on messages (`ORDER BY date_utc DESC`). -/
def msgDescLe (a b : Message) : Prop := strLe b.date a.date

instance : DecidableRel msgDescLe :=
  fun a b => inferInstanceAs (Decidable (strLe b.date a.date))

/-- Latest-date-descending order on summaries
(`ORDER BY latest_date DESC`). -/
def summaryDescLe (a b : ConversationSummary) : Prop :=
  strLe b.latest_date a.latest_date

instance : DecidableRel summaryDescLe :=
  fun a b => inferInstanceAs (Decidable (strLe b.latest_date a.latest_date))

instance : IsTotal ConversationSummary summaryDescLe :=
  ⟨fun a b => (IsTotal.total (r := strLe) a.latest_date b.latest_date).symm⟩

instance : IsTrans ConversationSummary summaryDescLe :=
  ⟨fun _ _ _ hab hbc => IsTrans.trans (r := strLe) _ _ _ hbc hab⟩

/-- `MAX` of a non-empty group of TEXT values (first row's value as the
accumulator, as SQLite scans the group). -/
def maxStrNe : List String → String
  | [] => ""
  | s :: rest => rest.foldl (fun acc x => if leChars acc.data x.data then x else acc) s

/-- `MIN` of a non-empty group of TEXT values. -/
def minStrNe : List String → String
  | [] => ""
  | s :: rest => rest.foldl (fun acc x => if leChars x.data acc.data then x else acc) s

/-! ## SQLite `LIKE` (the prefix queries run `conv_id LIKE 'p%'`)

SQLite's default `LIKE` is case-insensitive for the ASCII range (it folds
A–Z only, as `Char.toLower` does) and treats `%` as any sequence and `_`
as any single character. -/

/-- One step of SQLite `LIKE` matching, fuel-driven: pattern then text. -/
def likeMatchChars : Nat → List Char → List Char → Bool
  | 0, _, _ => false
  | fuel + 1, pat, txt =>
    match pat, txt with
    | [], [] => true
    | [], _ :: _ => false
    | '%' :: ps, t =>
      likeMatchChars fuel ps t ||
        (match t with
         | [] => false
         | _ :: ts => likeMatchChars fuel ('%' :: ps) ts)
    | '_' :: _, [] => false
    | '_' :: ps, _ :: ts => likeMatchChars fuel ps ts
    | _ :: _, [] => false
    | p :: ps, c :: ts =>
      Char.toLower p = Char.toLower c && likeMatchChars fuel ps ts

/-- SQLite `text LIKE pattern` (each step consumes a pattern or text
character, so the combined length is enough fuel). -/
def likeMatch (pattern text : String) : Bool :=
  likeMatchChars (pattern.data.length + text.data.length + 1) pattern.data text.data

/-! ## The message cache (`cache.py`): conversations and summaries -/

/-- The summary row that the `GROUP BY conv_id` query produces for one
group (`find_conversations_by_prefix` / `list_conversations`).  The
`GROUP_CONCAT(DISTINCT from_addr)` then `split(",")` round trip is
modelled as the list of distinct `from` addresses (exact whenever the
addresses are non-empty and comma-free, as RFC addr-specs are).  The
snippet subquery ranges over the whole table, not just the filtered
rows. -/
def groupSummary (db : List Message) (cid : String) (group : List Message) :
    ConversationSummary :=
  { conv_id := cid
  , subject :=
      let s := minStrNe (group.map (fun m => m.subject))
      if s = "" then "(no subject)" else s
  , participants := dedupFirst (group.map (fun m => m.from_.addr))
  , message_count := group.length
  , unread_count := (group.filter (fun m => ! m.flags.contains "seen")).length
  , latest_date := maxStrNe (group.map (fun m => m.date))
  , snippet :=
      match (List.insertionSort msgDescLe
          (db.filter (fun m => m.conv_id = cid))).head? with
      | some m => (m.body_text.getD "").take 100
      | none => ""
  , account := minStrNe (group.map (fun m => m.account)) }

/-- `Cache.find_conversations_by_prefix` (Lean-style name: the snake-case
original is not a legal identifier here): all conversations whose conv_id
matches `LIKE p || '%'`, one summary per `conv_id` group, ordered by
latest date descending. -/
def findConversationsByPrefix (db : List Message) (p : String) :
    List ConversationSummary :=
  let rows := db.filter (fun m => likeMatch (p ++ "%") m.conv_id)
  let cids := dedupFirst (rows.map (fun m => m.conv_id))
  List.insertionSort summaryDescLe
    (cids.map (fun cid => groupSummary db cid (rows.filter (fun m => m.conv_id = cid))))

/-- `Cache._build_conversation` (`none` models the crash on an empty row
list, which the callers rule out). -/
def build_conversation : List Message → Option Conversation
  | [] => none
  | m0 :: rest =>
    let msgs := m0 :: rest
    some
      { conv_id := m0.conv_id
      , subject := m0.subject
      , participants :=
          List.insertionSort strLe
            (dedupFirst ((msgs.map (fun m =>
              m.from_.addr :: (m.to_ ++ m.cc).map (fun a => a.addr))).flatten))
      , message_count := msgs.length
      , unread_count := (msgs.filter (fun m => ! m.is_read)).length
      , latest_date := maxStrNe (msgs.map (fun m => m.date))
      , messages := msgs
      , account := m0.account }

/-- `Cache.get_conversation`: exact match first, else a unique `LIKE`
prefix match, else `none`. -/
def get_conversation (db : List Message) (conv_id : String) : Option Conversation :=
  match List.insertionSort msgAscLe (db.filter (fun m => m.conv_id = conv_id)) with
  | m0 :: rest => build_conversation (m0 :: rest)
  | [] =>
    match findConversationsByPrefix db conv_id with
    | [s] =>
      build_conversation
        (List.insertionSort msgAscLe (db.filter (fun m => m.conv_id = s.conv_id)))
    | _ => none

/-- The row filter of `Cache.list_conversations` (`folder = ?` plus the
account clause added only for a truthy account value). -/
def listConvRowPred (account : Option String) (folder : String)
    (m : Message) : Bool :=
  m.folder = folder &&
    (match account with
     | some a => if a = "" then true else m.account = a
     | none => true)

/-- `Cache.list_conversations`. -/
def list_conversations (db : List Message) (account : Option String)
    (folder : String) (unread_only : Bool) (limit : Nat) :
    List ConversationSummary :=
  let rows := db.filter (listConvRowPred account folder)
  let cids := dedupFirst (rows.map (fun m => m.conv_id))
  let summaries :=
    cids.map (fun cid => groupSummary db cid (rows.filter (fun m => m.conv_id = cid)))
  let summaries :=
    if unread_only then summaries.filter (fun s => 0 < s.unread_count) else summaries
  (List.insertionSort summaryDescLe summaries).take limit

/-- The write keywords `execute_raw_query` rejects. -/
def dangerousKeywords : List String :=
  ["INSERT", "UPDATE", "DELETE", "DROP", "ALTER", "CREATE", "TRUNCATE"]

/-- The guard and LIMIT-appending logic of `Cache.execute_raw_query`: the
SQL text finally executed, or the `ValueError` message. -/
def execute_raw_query_sql (sql : String) (limit : Nat) : Except String String :=
  let sqlUpper := toUpperStr (trimStr sql)
  if ¬ ("SELECT".data.isPrefixOf sqlUpper.data) then
    Except.error "Only SELECT queries are allowed"
  else
    match dangerousKeywords.find? (fun k => containsSub sqlUpper k) with
    | some k => Except.error ("Query contains disallowed keyword: " ++ k)
    | none =>
      if ¬ containsSub sqlUpper "LIMIT" then
        Except.ok (rstripSemis sql ++ " LIMIT " ++ toString limit)
      else
        Except.ok sql

/-! ## Membership and uniqueness of `dedupFirst` -/

/-- Membership in the deduplication worker. -/
theorem mem_dedupFirstAux [DecidableEq α] (a : α) :
    ∀ (l seen : List α), a ∈ dedupFirstAux seen l ↔ a ∈ l ∧ a ∉ seen := by
  intro l
  induction l with
  | nil => intro seen; simp [dedupFirstAux]
  | cons b rest ih =>
    intro seen
    by_cases hb : b ∈ seen
    · rw [dedupFirstAux, if_pos hb, ih]
      constructor
      · rintro ⟨h1, h2⟩
        exact ⟨List.mem_cons.mpr (Or.inr h1), h2⟩
      · rintro ⟨h1, h2⟩
        rcases List.mem_cons.mp h1 with rfl | h1
        · exact absurd hb h2
        · exact ⟨h1, h2⟩
    · rw [dedupFirstAux, if_neg hb, List.mem_cons, ih]
      constructor
      · rintro (rfl | ⟨h1, h2⟩)
        · exact ⟨List.mem_cons.mpr (Or.inl rfl), hb⟩
        · exact ⟨List.mem_cons.mpr (Or.inr h1),
            fun hs => h2 (List.mem_cons.mpr (Or.inr hs))⟩
      · rintro ⟨h1, h2⟩
        rcases List.mem_cons.mp h1 with rfl | h1
        · exact Or.inl rfl
        · by_cases hab : a = b
          · exact Or.inl hab
          · exact Or.inr ⟨h1, fun hs => (List.mem_cons.mp hs).elim hab h2⟩

/-- The deduplication worker never repeats an element. -/
theorem nodup_dedupFirstAux [DecidableEq α] :
    ∀ (l seen : List α), (dedupFirstAux seen l).Nodup := by
  intro l
  induction l with
  | nil => intro seen; exact List.nodup_nil
  | cons b rest ih =>
    intro seen
    by_cases hb : b ∈ seen
    · rw [dedupFirstAux, if_pos hb]
      exact ih seen
    · rw [dedupFirstAux, if_neg hb, List.nodup_cons]
      refine ⟨fun hmem => ?_, ih (b :: seen)⟩
      exact ((mem_dedupFirstAux b rest (b :: seen)).mp hmem).2
        (List.mem_cons.mpr (Or.inl rfl))

/-- `dedupFirst` keeps exactly the members. -/
theorem mem_dedupFirst [DecidableEq α] (a : α) (l : List α) :
    a ∈ dedupFirst l ↔ a ∈ l := by
  rw [dedupFirst, mem_dedupFirstAux]
  simp

/-- `dedupFirst` produces no duplicates. -/
theorem nodup_dedupFirst [DecidableEq α] (l : List α) : (dedupFirst l).Nodup :=
  nodup_dedupFirstAux l []

/-! ## Claim C7: the raw-query guard -/

/-- C7: `execute_raw_query` raises exactly when the statement (trimmed,
upper-cased) does not begin with SELECT or contains one of the write
keywords; an accepted statement with no LIMIT gets a LIMIT clause with the
given limit appended (after stripping trailing semicolons). -/
theorem execute_raw_query_guard (sql : String) (limit : Nat) :
    ((∃ e, execute_raw_query_sql sql limit = Except.error e) ↔
      (¬ "SELECT".data.isPrefixOf (toUpperStr (trimStr sql)).data ∨
        ∃ k ∈ dangerousKeywords, containsSub (toUpperStr (trimStr sql)) k = true)) ∧
    ("SELECT".data.isPrefixOf (toUpperStr (trimStr sql)).data →
      (∀ k ∈ dangerousKeywords, ¬ containsSub (toUpperStr (trimStr sql)) k = true) →
      containsSub (toUpperStr (trimStr sql)) "LIMIT" = false →
      execute_raw_query_sql sql limit =
        Except.ok (rstripSemis sql ++ " LIMIT " ++ toString limit)) := by
  unfold execute_raw_query_sql
  by_cases hsel : "SELECT".data.isPrefixOf (toUpperStr (trimStr sql)).data
  · rw [if_neg (by simpa using hsel)]
    cases hfind : dangerousKeywords.find?
        (fun k => containsSub (toUpperStr (trimStr sql)) k) with
    | some k =>
      refine ⟨⟨fun _ => Or.inr ⟨k, List.mem_of_find?_eq_some hfind,
        by simpa using List.find?_some hfind⟩, fun _ => ⟨_, rfl⟩⟩, ?_⟩
      intro _ hnone _
      exact absurd (by simpa using List.find?_some hfind)
        (hnone k (List.mem_of_find?_eq_some hfind))
    | none =>
      have hnone := List.find?_eq_none.mp hfind
      constructor
      · constructor
        · rintro ⟨e, he⟩
          by_cases hlim : containsSub (toUpperStr (trimStr sql)) "LIMIT" = true
          · rw [if_neg (by simpa using hlim)] at he
            cases he
          · rw [if_pos (by simpa using hlim)] at he
            cases he
        · rintro (h | ⟨k, hk, hck⟩)
          · exact absurd hsel h
          · exact absurd hck (by simpa using hnone k hk)
      · intro _ _ hlim
        rw [if_pos (by simp [hlim])]
  · rw [if_pos (by simpa using hsel)]
    exact ⟨⟨fun _ => Or.inl hsel, fun _ => ⟨_, rfl⟩⟩, fun h => absurd h hsel⟩

/-- Witness for C7: a write statement is rejected and a plain SELECT gets
the LIMIT appended. -/
theorem execute_raw_query_guard_witness :
    (∃ e, execute_raw_query_sql "DELETE FROM messages" 100 = Except.error e) ∧
    execute_raw_query_sql "SELECT * FROM notes;" 7 =
      Except.ok "SELECT * FROM notes LIMIT 7" :=
  ⟨(execute_raw_query_guard "DELETE FROM messages" 100).1.mpr (Or.inl (by decide)),
   (execute_raw_query_guard "SELECT * FROM notes;" 7).2 (by decide)
     (by decide) (by decide)⟩

/-! ## Claim C5: conversation lookup by id or prefix -/

/-- The distinct conversation ids whose rows match `LIKE p || '%'`. -/
def convIdsMatching (db : List Message) (p : String) : List String :=
  dedupFirst ((db.filter (fun m => likeMatch (p ++ "%") m.conv_id)).map
    (fun m => m.conv_id))

/-- A stored message with a lower-case conversation id. -/
def msgA : Message :=
  { message_id := "m1", conv_id := "abc123",
    from_ := ⟨"alice@example.com", ""⟩, date := "2025-01-01T00:00:00+00:00" }

/-- C5 counterexample: the lookup string "AB" is not a prefix of the only
stored conv_id "abc", so the claim demands an absent result, yet
`get_conversation` returns that conversation — SQLite `LIKE` matches
case-insensitively. -/
theorem get_conversation_matches_non_prefix :
    (get_conversation [msgA] "AB").map (fun c => c.conv_id) = some "abc123" ∧
    "AB".data.isPrefixOf "abc123".data = false := by
  constructor
  · rfl
  · rfl

/-- The summaries' conversation ids are a permutation of the distinct
matching conversation ids. -/
theorem findConversationsByPrefix_map_conv_id (db : List Message) (p : String) :
    ((findConversationsByPrefix db p).map (fun s => s.conv_id)).Perm
      (convIdsMatching db p) := by
  unfold findConversationsByPrefix convIdsMatching
  refine (List.Perm.map _ (List.perm_insertionSort _ _)).trans ?_
  rw [List.map_map]
  rw [show ((fun s : ConversationSummary => s.conv_id) ∘ fun cid =>
      groupSummary db cid
        ((db.filter (fun m => likeMatch (p ++ "%") m.conv_id)).filter
          (fun m => m.conv_id = cid))) = id from funext fun _ => rfl]
  rw [List.map_id]

/-- The summaries come out ordered by latest date descending. -/
theorem findConversationsByPrefix_sorted (db : List Message) (p : String) :
    List.Sorted summaryDescLe (findConversationsByPrefix db p) :=
  List.sorted_insertionSort summaryDescLe _

/-- C5 (amended): `get_conversation(p)` returns the conversation whose
conv_id equals `p` exactly (case-sensitively) when its rows exist; failing
that, when exactly one stored conv_id matches the SQLite pattern
`p || '%'` — ASCII-case-insensitively, with `%`/`_` in `p` acting as
wildcards — it returns that conversation, and with zero or several such
conv_ids it returns absent; `find_conversations_by_prefix(p)` returns one
summary per matching conv_id, ordered by latest_date descending. -/
theorem get_conversation_lookup (db : List Message) (p : String) :
    (∀ m, m ∈ db → m.conv_id = p →
      ∃ c, get_conversation db p = some c ∧ c.conv_id = p) ∧
    (∀ cid, (∀ m ∈ db, ¬ m.conv_id = p) → convIdsMatching db p = [cid] →
      ∃ c, get_conversation db p = some c ∧ c.conv_id = cid) ∧
    ((∀ m ∈ db, ¬ m.conv_id = p) → (convIdsMatching db p).length ≠ 1 →
      get_conversation db p = none) ∧
    ((findConversationsByPrefix db p).map (fun s => s.conv_id)).Perm
      (convIdsMatching db p) ∧
    List.Sorted summaryDescLe (findConversationsByPrefix db p) := by
  refine ⟨?_, ?_, ?_, findConversationsByPrefix_map_conv_id db p,
    findConversationsByPrefix_sorted db p⟩
  · intro m hm he
    have hmf : m ∈ db.filter (fun x => decide (x.conv_id = p)) :=
      List.mem_filter.mpr ⟨hm, by simp [he]⟩
    have hmem : m ∈ List.insertionSort msgAscLe
        (db.filter (fun x => decide (x.conv_id = p))) :=
      (List.perm_insertionSort msgAscLe _).mem_iff.mpr hmf
    unfold get_conversation
    cases hsort : List.insertionSort msgAscLe
        (db.filter (fun m => decide (m.conv_id = p))) with
    | nil =>
      rw [hsort] at hmem
      cases hmem
    | cons m0 rest =>
      simp only [hsort]
      refine ⟨_, rfl, ?_⟩
      have hm0 : m0 ∈ db.filter (fun x => decide (x.conv_id = p)) :=
        (List.perm_insertionSort msgAscLe _).mem_iff.mp
          (hsort ▸ List.mem_cons.mpr (Or.inl rfl))
      have := (List.mem_filter.mp hm0).2
      simpa using this
  · intro cid hno h1
    have hfe : db.filter (fun m => decide (m.conv_id = p)) = [] :=
      List.filter_eq_nil_iff.mpr (fun m hm => by simpa using hno m hm)
    have hs : List.insertionSort msgAscLe
        (db.filter (fun m => decide (m.conv_id = p))) = [] := by
      rw [hfe]
      rfl
    have hp := (findConversationsByPrefix_map_conv_id db p).trans
      (by rw [h1] : (convIdsMatching db p).Perm [cid])
    unfold get_conversation
    rw [hs]
    cases hf : findConversationsByPrefix db p with
    | nil =>
      rw [hf] at hp
      exact absurd hp.length_eq (by simp)
    | cons s rest =>
      cases rest with
      | cons s2 r2 =>
        rw [hf] at hp
        exact absurd hp.length_eq (by simp)
      | nil =>
        rw [hf] at hp
        have hseq : s.conv_id = cid := by
          have := List.perm_singleton.mp hp
          simpa using this
        have hcidmem : cid ∈ convIdsMatching db p := by
          rw [h1]
          exact List.mem_cons.mpr (Or.inl rfl)
        rw [convIdsMatching, mem_dedupFirst] at hcidmem
        obtain ⟨m, hmlike, hmcid⟩ := List.mem_map.mp hcidmem
        have hmrow : m ∈ db.filter (fun x => decide (x.conv_id = s.conv_id)) := by
          refine List.mem_filter.mpr ⟨(List.mem_filter.mp hmlike).1, ?_⟩
          simp [hmcid, hseq]
        have hmem2 : m ∈ List.insertionSort msgAscLe
            (db.filter (fun x => decide (x.conv_id = s.conv_id))) :=
          (List.perm_insertionSort msgAscLe _).mem_iff.mpr hmrow
        cases hsort2 : List.insertionSort msgAscLe
            (db.filter (fun m => decide (m.conv_id = s.conv_id))) with
        | nil =>
          rw [hsort2] at hmem2
          cases hmem2
        | cons m0 rest2 =>
          simp only [hsort2]
          refine ⟨_, rfl, ?_⟩
          have hm0 : m0 ∈ db.filter (fun x => decide (x.conv_id = s.conv_id)) :=
            (List.perm_insertionSort msgAscLe _).mem_iff.mp
              (hsort2 ▸ List.mem_cons.mpr (Or.inl rfl))
          have := (List.mem_filter.mp hm0).2
          simp only [decide_eq_true_eq] at this
          rw [this, hseq]
  · intro hno hn1
    have hfe : db.filter (fun m => decide (m.conv_id = p)) = [] :=
      List.filter_eq_nil_iff.mpr (fun m hm => by simpa using hno m hm)
    have hs : List.insertionSort msgAscLe
        (db.filter (fun m => decide (m.conv_id = p))) = [] := by
      rw [hfe]
      rfl
    have hp := findConversationsByPrefix_map_conv_id db p
    unfold get_conversation
    rw [hs]
    cases hf : findConversationsByPrefix db p with
    | nil => rfl
    | cons s rest =>
      cases rest with
      | nil =>
        rw [hf] at hp
        exact absurd (by simpa using hp.length_eq.symm) hn1
      | cons s2 r2 => rfl

/-- A second stored message sharing the two-character id prefix "ab". -/
def msgB : Message :=
  { message_id := "m2", conv_id := "abd999",
    from_ := ⟨"bob@example.com", ""⟩, date := "2025-01-02T00:00:00+00:00" }

/-- Witness for C5's amended theorem: exact lookup hits, a unique
three-character prefix resolves, and the ambiguous two-character prefix is
absent. -/
theorem get_conversation_lookup_witness :
    (∃ c, get_conversation [msgA, msgB] "abc123" = some c ∧ c.conv_id = "abc123") ∧
    (∃ c, get_conversation [msgA, msgB] "abc" = some c ∧ c.conv_id = "abc123") ∧
    get_conversation [msgA, msgB] "ab" = none := by
  refine ⟨(get_conversation_lookup [msgA, msgB] "abc123").1 msgA
      (List.mem_cons.mpr (Or.inl rfl)) rfl, ?_, ?_⟩
  · refine (get_conversation_lookup [msgA, msgB] "abc").2.1 "abc123" ?_ ?_
    · decide
    · decide
  · refine (get_conversation_lookup [msgA, msgB] "ab").2.2.1 ?_ ?_
    · decide
    · decide

/-! ## Claim C8: participants of conversations and summaries -/

/-- A stored message from `a@x` to `b@x`. -/
def msgC : Message :=
  { message_id := "m3", conv_id := "c1", from_ := ⟨"a@x", ""⟩,
    to_ := [⟨"b@x", ""⟩], date := "2025-01-01T00:00:00+00:00" }

/-- C8 counterexample: the materialized conversation's participants are the
sorted union of from/to/cc addresses, but the summary produced by
`find_conversations_by_prefix` (and `list_conversations`) carries only the
distinct `from` addresses — `GROUP_CONCAT(DISTINCT from_addr)` — so the
recipient `b@x` is missing from it. -/
theorem summary_participants_miss_recipients :
    (get_conversation [msgC] "c1").map (fun c => c.participants) =
      some ["a@x", "b@x"] ∧
    (findConversationsByPrefix [msgC] "c1").map (fun s => s.participants) =
      [["a@x"]] ∧
    (list_conversations [msgC] none "INBOX" false 20).map
      (fun s => s.participants) = [["a@x"]] ∧
    ¬ (["a@x"] = ["a@x", "b@x"]) := by
  refine ⟨rfl, rfl, rfl, by decide⟩

/-- Participants of one summary group: exactly the distinct `from`
addresses of the rows with that conv id among the filtered rows. -/
theorem groupSummary_participants (db : List Message) (pred : Message → Bool)
    (cid : String) :
    (groupSummary db cid
        ((db.filter pred).filter (fun m => m.conv_id = cid))).participants.Nodup ∧
    ∀ a, a ∈ (groupSummary db cid
        ((db.filter pred).filter (fun m => m.conv_id = cid))).participants ↔
      ∃ m ∈ db, pred m = true ∧ m.conv_id = cid ∧ a = m.from_.addr := by
  constructor
  · exact nodup_dedupFirst _
  · intro a
    show a ∈ dedupFirst _ ↔ _
    rw [mem_dedupFirst]
    constructor
    · intro h
      obtain ⟨m, hm, hma⟩ := List.mem_map.mp h
      have h2 := List.mem_filter.mp hm
      have h3 := List.mem_filter.mp h2.1
      exact ⟨m, h3.1, h3.2, by simpa using h2.2, hma.symm⟩
    · rintro ⟨m, hm, hpred, hcid, rfl⟩
      exact List.mem_map.mpr ⟨m, List.mem_filter.mpr
        ⟨List.mem_filter.mpr ⟨hm, hpred⟩, by simpa using hcid⟩, rfl⟩

/-- C8 (amended): the participants of a materialized `Conversation` are the
sorted, duplicate-free union of the from addresses and the to/cc addresses
of its messages; the participants of the `ConversationSummary` rows that
`find_conversations_by_prefix` and `list_conversations` return are only the
distinct `from` addresses of the group — to/cc addresses are not
included. -/
theorem conversation_participants :
    (∀ (msgs : List Message) (c : Conversation), build_conversation msgs = some c →
      List.Sorted strLe c.participants ∧ c.participants.Nodup ∧
      ∀ a, a ∈ c.participants ↔
        ∃ m ∈ msgs, a = m.from_.addr ∨ ∃ r ∈ m.to_ ++ m.cc, a = r.addr) ∧
    (∀ (db : List Message) (p : String) (s : ConversationSummary),
      s ∈ findConversationsByPrefix db p →
      s.participants.Nodup ∧
      ∀ a, a ∈ s.participants ↔
        ∃ m ∈ db, likeMatch (p ++ "%") m.conv_id = true ∧
          m.conv_id = s.conv_id ∧ a = m.from_.addr) ∧
    (∀ (db : List Message) (account : Option String) (folder : String)
      (unread_only : Bool) (limit : Nat) (s : ConversationSummary),
      s ∈ list_conversations db account folder unread_only limit →
      s.participants.Nodup ∧
      ∀ a, a ∈ s.participants ↔
        ∃ m ∈ db, listConvRowPred account folder m = true ∧
          m.conv_id = s.conv_id ∧ a = m.from_.addr) := by
  refine ⟨?_, ?_, ?_⟩
  · intro msgs c hc
    cases msgs with
    | nil => cases hc
    | cons m0 rest =>
      cases hc
      refine ⟨List.sorted_insertionSort _ _, ?_, ?_⟩
      · exact ((List.perm_insertionSort strLe _).nodup_iff).mpr (nodup_dedupFirst _)
      · intro a
        rw [(List.perm_insertionSort strLe _).mem_iff, mem_dedupFirst,
          List.mem_flatten]
        constructor
        · rintro ⟨l, hl, hal⟩
          obtain ⟨m, hm, rfl⟩ := List.mem_map.mp hl
          rcases List.mem_cons.mp hal with rfl | hal
          · exact ⟨m, hm, Or.inl rfl⟩
          · obtain ⟨r, hr, hra⟩ := List.mem_map.mp hal
            exact ⟨m, hm, Or.inr ⟨r, hr, hra.symm⟩⟩
        · rintro ⟨m, hm, rfl | ⟨r, hr, rfl⟩⟩
          · exact ⟨_, List.mem_map.mpr ⟨m, hm, rfl⟩,
              List.mem_cons.mpr (Or.inl rfl)⟩
          · exact ⟨_, List.mem_map.mpr ⟨m, hm, rfl⟩,
              List.mem_cons.mpr (Or.inr (List.mem_map.mpr ⟨r, hr, rfl⟩))⟩
  · intro db p s hs
    unfold findConversationsByPrefix at hs
    rw [(List.perm_insertionSort summaryDescLe _).mem_iff] at hs
    obtain ⟨cid, _, rfl⟩ := List.mem_map.mp hs
    exact groupSummary_participants db (fun m => likeMatch (p ++ "%") m.conv_id) cid
  · intro db account folder unread_only limit s hs
    unfold list_conversations at hs
    have hs2 := List.mem_of_mem_take hs
    rw [(List.perm_insertionSort summaryDescLe _).mem_iff] at hs2
    have hs3 : s ∈ (dedupFirst ((db.filter (listConvRowPred account folder)).map
        (fun m => m.conv_id))).map (fun cid => groupSummary db cid
          ((db.filter (listConvRowPred account folder)).filter
            (fun m => m.conv_id = cid))) := by
      by_cases hu : unread_only
      · rw [if_pos hu] at hs2
        exact List.mem_of_mem_filter hs2
      · rw [if_neg hu] at hs2
        exact hs2
    obtain ⟨cid, _, rfl⟩ := List.mem_map.mp hs3
    exact groupSummary_participants db (listConvRowPred account folder) cid

/-- The summary of the `c1` group of the one-message store. -/
def sC : ConversationSummary :=
  (findConversationsByPrefix [msgC] "c1").headD
    { conv_id := "", subject := "", participants := [], message_count := 0,
      unread_count := 0, latest_date := "" }

/-- The conversation materialized from the one-message store. -/
def cC : Conversation :=
  (build_conversation [msgC]).getD
    { conv_id := "", subject := "", latest_date := "" }

set_option maxRecDepth 4000 in
/-- Witness for C8's amended theorem at the concrete one-message store. -/
theorem conversation_participants_witness :
    (List.Sorted strLe cC.participants ∧
      ("b@x" ∈ cC.participants ↔ ∃ m ∈ [msgC], "b@x" = m.from_.addr ∨
        ∃ r ∈ m.to_ ++ m.cc, "b@x" = r.addr)) ∧
    (sC.participants.Nodup ∧
      ("b@x" ∈ sC.participants ↔ ∃ m ∈ [msgC],
        likeMatch ("c1" ++ "%") m.conv_id = true ∧
          m.conv_id = sC.conv_id ∧ "b@x" = m.from_.addr)) :=
  ⟨⟨(conversation_participants.1 [msgC] cC rfl).1,
    (conversation_participants.1 [msgC] cC rfl).2.2 "b@x"⟩,
   ⟨(conversation_participants.2.1 [msgC] "c1" sC (by decide)).1,
    (conversation_participants.2.1 [msgC] "c1" sC (by decide)).2 "b@x"⟩⟩

/-! ## Draft engine (`drafts.py`) -/

/-- `DraftManager.create`: assemble and stamp a draft (the fresh draft id
and the clock are parameters). -/
def draft_create (account : String) (to_ : List Address) (subject : String)
    (body_text : String) (cc bcc : List Address) (body_html : Option String)
    (reply_to_conv_id in_reply_to : Option String) (references : List String)
    (draft_id : String) (now : Int) : Draft :=
  { draft_id := draft_id, account := account, to_ := to_, cc := cc, bcc := bcc,
    subject := subject, body_text := body_text, body_html := body_html,
    reply_to_conv_id := reply_to_conv_id, in_reply_to := in_reply_to,
    references := references, created_at := now, updated_at := now }

/-- `DraftManager.create_reply`: reply to the latest message of the stored
conversation.  Errors model the raised `ValueError`s. -/
def create_reply (db : List Message) (cfg : ClerkConfig) (account : String)
    (conv_id : String) (body_text : String) (body_html : Option String)
    (reply_all : Bool) (draft_id : String) (now : Int) : Except String Draft :=
  match get_conversation db conv_id with
  | none => Except.error ("Conversation not found: " ++ conv_id)
  | some conv =>
    match conv.messages.getLast? with
    | none => Except.error ("Conversation has no messages: " ++ conv_id)
    | some latest =>
      match cfg.get_account (some account) with
      | Except.error e => Except.error e
      | Except.ok pa =>
        let my_addr := toLowerStr pa.2.from_.address
        let to_ := [latest.from_]
        let cc :=
          if reply_all then
            (latest.to_ ++ latest.cc).filter
              (fun addr => ¬ toLowerStr addr.addr = my_addr ∧ addr ∉ to_)
          else []
        let subject :=
          if ¬ ("re:".data.isPrefixOf (toLowerStr latest.subject).data) then
            "Re: " ++ latest.subject
          else latest.subject
        let references :=
          if ¬ latest.message_id = "" ∧ latest.message_id ∉ latest.references then
            latest.references ++ [latest.message_id]
          else latest.references
        Except.ok (draft_create account to_ subject body_text cc [] body_html
          (some conv_id) (some latest.message_id) references draft_id now)

/-! ## Claim C6: reply construction -/

/-- A stored message whose subject starts with upper-case "RE:" and whose
message id is empty (header-less). -/
def msgD : Message :=
  { message_id := "", conv_id := "d1", from_ := ⟨"carol@example.com", ""⟩,
    subject := "RE: Topic", references := ["<a@x>"],
    date := "2025-01-03T00:00:00+00:00" }

/-- C6 counterexample: for a latest message with subject "RE: Topic" (which
does not start with the literal "Re:") and empty message id absent from the
references, the claim demands subject "Re: RE: Topic" and references
["<a@x>", ""], but the reply keeps "RE: Topic" (the code's check is
case-insensitive) and keeps references ["<a@x>"] (the id is only appended
when non-empty). -/
theorem create_reply_case_and_empty_id :
    ∃ d, create_reply [msgD] cfgMissingSmtp "a" "d1" "ok" none false
        "draft_9" 0 = Except.ok d ∧
      d.subject = "RE: Topic" ∧ ¬ d.subject = "Re: RE: Topic" ∧
      d.references = ["<a@x>"] ∧ ¬ d.references = ["<a@x>", ""] ∧
      msgD.message_id ∉ msgD.references := by
  refine ⟨_, rfl, rfl, by decide, rfl, by decide, by decide⟩

/-- C6 (amended): for every non-empty stored conversation the reply draft
carries `in_reply_to = latest.message_id`; its references are
`latest.references` with `latest.message_id` appended exactly when that id
is non-empty and not already present; and its subject is `"Re: "` prepended
to the latest subject unless that subject already starts with `"re:"`
case-insensitively. -/
theorem create_reply_threading (db : List Message) (cfg : ClerkConfig)
    (account conv_id body : String) (body_html : Option String)
    (reply_all : Bool) (draft_id : String) (now : Int)
    (conv : Conversation) (latest : Message) (d : Draft)
    (hconv : get_conversation db conv_id = some conv)
    (hlast : conv.messages.getLast? = some latest)
    (hd : create_reply db cfg account conv_id body body_html reply_all
      draft_id now = Except.ok d) :
    d.in_reply_to = some latest.message_id ∧
    (¬ latest.message_id = "" → latest.message_id ∉ latest.references →
      d.references = latest.references ++ [latest.message_id]) ∧
    (latest.message_id ∈ latest.references → d.references = latest.references) ∧
    (latest.message_id = "" → d.references = latest.references) ∧
    (¬ ("re:".data.isPrefixOf (toLowerStr latest.subject).data) →
      d.subject = "Re: " ++ latest.subject) ∧
    ("re:".data.isPrefixOf (toLowerStr latest.subject).data →
      d.subject = latest.subject) := by
  unfold create_reply at hd
  rw [hconv] at hd
  simp only [hlast] at hd
  cases hacct : cfg.get_account (some account) with
  | error e =>
    rw [hacct] at hd
    cases hd
  | ok pa =>
    rw [hacct] at hd
    simp only [draft_create] at hd
    have hd' := Except.ok.inj hd
    subst hd'
    refine ⟨rfl, ?_, ?_, ?_, ?_, ?_⟩
    · intro hne hnotmem
      show (if _ then _ else _) = _
      rw [if_pos ⟨hne, hnotmem⟩]
    · intro hmem
      show (if _ then _ else _) = _
      rw [if_neg (fun h => h.2 hmem)]
    · intro hempty
      show (if _ then _ else _) = _
      rw [if_neg (fun h => h.1 hempty)]
    · intro hnotre
      show (if _ then _ else _) = _
      rw [if_pos hnotre]
    · intro hre
      show (if _ then _ else _) = _
      rw [if_neg (by simpa using hre)]

/-- The latest message of the witness conversation: `message_id` `<m9@x>`,
references `[<m1@x>, <m5@x>]`, subject already `Re:`-prefixed. -/
def msgM : Message :=
  { message_id := "<m9@x>", conv_id := "e1", from_ := ⟨"dave@example.com", ""⟩,
    subject := "Re: Topic", references := ["<m1@x>", "<m5@x>"],
    date := "2025-01-04T00:00:00+00:00" }

/-- The conversation materialized for the witness. -/
def convM : Conversation :=
  (get_conversation [msgM] "e1").getD
    { conv_id := "", subject := "", latest_date := "" }

/-- The reply draft produced for the witness. -/
def dM : Draft :=
  (create_reply [msgM] cfgMissingSmtp "a" "e1" "ok" none false
      "draft_7" 0).toOption.getD
    { draft_id := "", account := "", to_ := [], subject := "", body_text := "" }

set_option maxRecDepth 4000 in
/-- Witness for C6's amended theorem: the claim's own concrete instance
(message id `<m9@x>`, references `[<m1@x>, <m5@x>]`, subject "Re: Topic"). -/
theorem create_reply_threading_witness :
    dM.in_reply_to = some "<m9@x>" ∧
    dM.references = ["<m1@x>", "<m5@x>", "<m9@x>"] ∧
    dM.subject = "Re: Topic" :=
  have h := create_reply_threading [msgM] cfgMissingSmtp "a" "e1" "ok" none
    false "draft_7" 0 convM msgM dM rfl rfl rfl
  ⟨h.1, by rw [h.2.1 (by decide) (by decide)]; rfl,
   by rw [h.2.2.2.2.2 (by decide)]; rfl⟩

/-! ## Search query parser (`search.py`)

Datetimes are modelled as `Int` POSIX seconds (UTC).  The civil-date
conversion uses the standard days-from-civil algorithm and is validated on
the epoch below. -/

/-- A token of the search lexer (`search.Token`: kind, value, and operator
name for operator tokens). -/
inductive Token where
  | operator (op : String) (value : String)
  | quoted (value : String)
  | word (value : String)
  | eof
deriving Repr, DecidableEq

/-- `search.OPERATORS`: recognized operator names and their aliases. -/
def OPERATORS : List (String × String) :=
  [("from", "from"), ("f", "from"), ("to", "to"), ("t", "to"),
   ("subject", "subject"), ("subj", "subject"), ("s", "subject"),
   ("body", "body"), ("b", "body"), ("has", "has"), ("is", "is"),
   ("after", "after"), ("since", "after"), ("before", "before"),
   ("until", "before"), ("date", "date"), ("on", "date")]

/-- Operator-table lookup. -/
def opLookup (name : String) : Option String :=
  (OPERATORS.find? (fun p => p.1 = name)).map (fun p => p.2)

/-- The character class `": \t\n"` at which the word scan stops. -/
def wordStopChar (c : Char) : Bool :=
  c = ':' || c = ' ' || c = '\t' || c = '\n'

/-- `search.tokenize`, fuel-driven (each produced token consumes at least
one character, so the query length plus one is enough fuel). -/
def tokenizeAux : Nat → List Char → List Token
  | 0, _ => []
  | fuel + 1, cs0 =>
    match cs0.dropWhile isSpaceChar with
    | [] => [Token.eof]
    | c :: rest =>
      if c = '"' then
        let value := rest.takeWhile (fun ch => ¬ ch = '"')
        let rest2 :=
          match rest.dropWhile (fun ch => ¬ ch = '"') with
          | [] => []
          | _ :: t => t
        Token.quoted (String.mk value) :: tokenizeAux fuel rest2
      else
        let cs := c :: rest
        let wordPart := cs.takeWhile (fun ch => ! wordStopChar ch)
        match cs.dropWhile (fun ch => ! wordStopChar ch) with
        | [] => Token.word (String.mk wordPart) :: tokenizeAux fuel []
        | c2 :: afterColon =>
          if c2 = ':' then
            match opLookup (toLowerStr (String.mk wordPart)) with
            | some op =>
              match afterColon with
              | [] => Token.operator op (String.mk []) :: tokenizeAux fuel []
              | c3 :: vrest =>
                if c3 = '"' then
                  let v := vrest.takeWhile (fun ch => ¬ ch = '"')
                  let vrest2 :=
                    match vrest.dropWhile (fun ch => ¬ ch = '"') with
                    | [] => []
                    | _ :: t => t
                  Token.operator op (String.mk v) :: tokenizeAux fuel vrest2
                else
                  let v := afterColon.takeWhile (fun ch => ! isSpaceChar ch)
                  Token.operator op (String.mk v) ::
                    tokenizeAux fuel
                      (afterColon.dropWhile (fun ch => ! isSpaceChar ch))
            | none =>
              let tail := afterColon.takeWhile (fun ch => ! isSpaceChar ch)
              Token.word (String.mk (wordPart ++ ':' :: tail)) ::
                tokenizeAux fuel
                  (afterColon.dropWhile (fun ch => ! isSpaceChar ch))
          else
            Token.word (String.mk wordPart) ::
              tokenizeAux fuel (c2 :: afterColon)

/-- `search.tokenize`. -/
def tokenize (query : String) : List Token :=
  tokenizeAux (query.data.length + 1) query.data

/-- `search.SearchQuery`; date fields are POSIX seconds. -/
structure SearchQuery where
  text_terms : List String := []
  from_addrs : List String := []
  to_addrs : List String := []
  subject_terms : List String := []
  body_terms : List String := []
  has_attachment : Option Bool := none
  is_unread : Option Bool := none
  is_read : Option Bool := none
  is_flagged : Option Bool := none
  after_date : Option Int := none
  before_date : Option Int := none
  on_date : Option Int := none
  original_query : String := ""
deriving Repr, DecidableEq

/-- Decimal digits to a number. -/
def digitsToNat (cs : List Char) : Nat :=
  cs.foldl (fun a c => a * 10 + (c.toNat - 48)) 0

/-- The relative-date pattern `^(\d+)([dwm])$`. -/
def parseRelative (cs : List Char) : Option (Nat × Char) :=
  match cs.getLast? with
  | none => none
  | some u =>
    if (u = 'd' ∨ u = 'w' ∨ u = 'm') ∧ ¬ cs.dropLast = [] ∧
        cs.dropLast.all Char.isDigit then
      some (digitsToNat cs.dropLast, u)
    else none

/-- Gregorian leap year. -/
def isLeap (y : Int) : Bool := (y % 4 = 0 ∧ ¬ y % 100 = 0) ∨ y % 400 = 0

/-- Days in a month. -/
def daysInMonth (y m : Int) : Int :=
  if m = 2 then (if isLeap y then 29 else 28)
  else if m = 4 ∨ m = 6 ∨ m = 9 ∨ m = 11 then 30
  else 31

/-- Days since 1970-01-01 of a civil date (standard days-from-civil). -/
def daysFromCivil (y m d : Int) : Int :=
  let yy := if m ≤ 2 then y - 1 else y
  let era := Int.fdiv yy 400
  let yoe := yy - era * 400
  let mm := if m > 2 then m - 3 else m + 9
  let doy := Int.fdiv (153 * mm + 2) 5 + d - 1
  let doe := yoe * 365 + Int.fdiv yoe 4 - Int.fdiv yoe 100 + doy
  era * 146097 + doe - 719468

/-- Validated civil date to POSIX midnight. -/
def makeDate (y m d : Int) : Option Int :=
  if 1 ≤ y ∧ y ≤ 9999 ∧ 1 ≤ m ∧ m ≤ 12 ∧ 1 ≤ d ∧ d ≤ daysInMonth y m then
    some (daysFromCivil y m d * 86400)
  else none

/-- The days-from-civil conversion hits the epoch and the 2025 new year. -/
theorem daysFromCivil_checks :
    daysFromCivil 1970 1 1 = 0 ∧ daysFromCivil 2025 1 1 * 86400 = 1735689600 := by
  constructor <;> rfl

/-- Split a character list on a separator. -/
def splitOnAux (sep : Char) (acc : List Char) : List Char → List (List Char)
  | [] => [acc.reverse]
  | c :: rest =>
    if c = sep then acc.reverse :: splitOnAux sep [] rest
    else splitOnAux sep (c :: acc) rest

/-- Split a character list on a separator. -/
def splitOn (sep : Char) (cs : List Char) : List (List Char) :=
  splitOnAux sep [] cs

/-- Field order of a date format. -/
inductive DateOrder where
  | ymd
  | mdy
  | dmy
deriving Repr, DecidableEq

/-- `strptime` with a three-field numeric format and one separator: each
field non-empty, digits only, the year up to four digits and month/day up
to two, range-validated. -/
def tryFormat (cs : List Char) (sep : Char) (ord : DateOrder) : Option Int :=
  match splitOn sep cs with
  | [p1, p2, p3] =>
    if ¬ p1 = [] ∧ ¬ p2 = [] ∧ ¬ p3 = [] ∧
        p1.all Char.isDigit ∧ p2.all Char.isDigit ∧ p3.all Char.isDigit then
      let q1 := (digitsToNat p1 : Int)
      let q2 := (digitsToNat p2 : Int)
      let q3 := (digitsToNat p3 : Int)
      match ord with
      | DateOrder.ymd =>
        if p1.length ≤ 4 ∧ p2.length ≤ 2 ∧ p3.length ≤ 2 then makeDate q1 q2 q3
        else none
      | DateOrder.mdy =>
        if p1.length ≤ 2 ∧ p2.length ≤ 2 ∧ p3.length ≤ 4 then makeDate q3 q1 q2
        else none
      | DateOrder.dmy =>
        if p1.length ≤ 2 ∧ p2.length ≤ 2 ∧ p3.length ≤ 4 then makeDate q3 q2 q1
        else none
    else none
  | _ => none

/-- `strptime` with the compact `%Y%m%d` format (eight digits; the regex
backtracking over shorter digit runs is not exercised by the repository
and is not modelled). -/
def tryCompact (cs : List Char) : Option Int :=
  if cs.length = 8 ∧ cs.all Char.isDigit then
    makeDate (digitsToNat (cs.take 4)) (digitsToNat ((cs.drop 4).take 2))
      (digitsToNat (cs.drop 6))
  else none

/-- `search.parse_date` (the clock is a parameter for the `today`,
`yesterday` and relative forms). -/
def parse_date (now : Int) (date_str : String) : Option Int :=
  let s := toLowerStr (trimStr date_str)
  if s = "today" then some (Int.fdiv now 86400 * 86400)
  else if s = "yesterday" then some (Int.fdiv (now - 86400) 86400 * 86400)
  else
    match parseRelative s.data with
    | some nu =>
      if nu.2 = 'd' then some (now - nu.1 * 86400)
      else if nu.2 = 'w' then some (now - nu.1 * 604800)
      else some (now - nu.1 * 30 * 86400)
    | none =>
      (tryFormat s.data '-' DateOrder.ymd).orElse fun _ =>
      (tryFormat s.data '/' DateOrder.ymd).orElse fun _ =>
      (tryFormat s.data '/' DateOrder.mdy).orElse fun _ =>
      (tryFormat s.data '-' DateOrder.dmy).orElse fun _ =>
      (tryFormat s.data '/' DateOrder.dmy).orElse fun _ =>
      tryCompact s.data

/-- One step of `search.parse_search_query`'s token loop. -/
def parseStep (now : Int) (q : SearchQuery) : Token → SearchQuery
  | Token.eof => q
  | Token.word v => if v = "" then q else { q with text_terms := q.text_terms ++ [v] }
  | Token.quoted v => if v = "" then q else { q with text_terms := q.text_terms ++ [v] }
  | Token.operator op v =>
    if op = "from" then { q with from_addrs := q.from_addrs ++ [v] }
    else if op = "to" then { q with to_addrs := q.to_addrs ++ [v] }
    else if op = "subject" then { q with subject_terms := q.subject_terms ++ [v] }
    else if op = "body" then { q with body_terms := q.body_terms ++ [v] }
    else if op = "has" then
      if toLowerStr v = "attachment" ∨ toLowerStr v = "attachments" ∨
          toLowerStr v = "attach" then
        { q with has_attachment := some true }
      else q
    else if op = "is" then
      if toLowerStr v = "unread" then
        { q with is_unread := some true, is_read := some false }
      else if toLowerStr v = "read" then
        { q with is_read := some true, is_unread := some false }
      else if toLowerStr v = "flagged" ∨ toLowerStr v = "starred" ∨
          toLowerStr v = "important" then
        { q with is_flagged := some true }
      else if toLowerStr v = "unflagged" then
        { q with is_flagged := some false }
      else q
    else if op = "after" then { q with after_date := parse_date now v }
    else if op = "before" then { q with before_date := parse_date now v }
    else if op = "date" then { q with on_date := parse_date now v }
    else q

/-- `search.parse_search_query`. -/
def parse_search_query (now : Int) (query : String) : SearchQuery :=
  (tokenize query).foldl (parseStep now) { original_query := query }

/-! ## Claim C9: search-query compilation -/

/-- `takeWhile` stops exactly at a separator appended after an
all-satisfying block. -/
theorem takeWhile_append_sep {p : Char → Bool} (x : Char) (hx : p x = false) :
    ∀ l1 l2 : List Char, (∀ c ∈ l1, p c = true) →
      (l1 ++ x :: l2).takeWhile p = l1 := by
  intro l1
  induction l1 with
  | nil =>
    intro l2 _
    simp [List.takeWhile_cons, hx]
  | cons c t ih =>
    intro l2 h1
    rw [List.cons_append, List.takeWhile_cons,
      h1 c (List.mem_cons.mpr (Or.inl rfl)), ih l2
        (fun d hd => h1 d (List.mem_cons.mpr (Or.inr hd)))]
    rw [if_pos rfl]

/-- `dropWhile` lands on the separator. -/
theorem dropWhile_append_sep {p : Char → Bool} (x : Char) (hx : p x = false) :
    ∀ l1 l2 : List Char, (∀ c ∈ l1, p c = true) →
      (l1 ++ x :: l2).dropWhile p = x :: l2 := by
  intro l1
  induction l1 with
  | nil =>
    intro l2 _
    simp [List.dropWhile_cons, hx]
  | cons c t ih =>
    intro l2 h1
    rw [List.cons_append, List.dropWhile_cons,
      if_pos (h1 c (List.mem_cons.mpr (Or.inl rfl)))]
    exact ih l2 (fun d hd => h1 d (List.mem_cons.mpr (Or.inr hd)))

/-- `takeWhile` keeps an all-satisfying list whole. -/
theorem takeWhile_all {p : Char → Bool} :
    ∀ l : List Char, (∀ c ∈ l, p c = true) → l.takeWhile p = l := by
  intro l
  induction l with
  | nil => intro _; rfl
  | cons c t ih =>
    intro h
    rw [List.takeWhile_cons, h c (List.mem_cons.mpr (Or.inl rfl)),
      ih (fun d hd => h d (List.mem_cons.mpr (Or.inr hd)))]
    rw [if_pos rfl]

/-- `dropWhile` exhausts an all-satisfying list. -/
theorem dropWhile_all {p : Char → Bool} :
    ∀ l : List Char, (∀ c ∈ l, p c = true) → l.dropWhile p = [] := by
  intro l
  induction l with
  | nil => intro _; rfl
  | cons c t ih =>
    intro h
    rw [List.dropWhile_cons, if_pos (h c (List.mem_cons.mpr (Or.inl rfl)))]
    exact ih (fun d hd => h d (List.mem_cons.mpr (Or.inr hd)))

/-- Any positive fuel tokenizes the empty input to `[eof]`. -/
theorem tokenizeAux_nil (f : Nat) (hf : 0 < f) : tokenizeAux f [] = [Token.eof] := by
  cases f with
  | zero => omega
  | succ g => rfl

/-- C9: parsing "from:alice has:attachment after:2025-01-01" yields
from_addrs = ["alice"], has_attachment = true,
after_date = 2025-01-01T00:00:00Z (POSIX 1735689600) and no text terms;
and every token `name:value` whose (lower-cased) name is not a recognized
operator — the name non-empty and free of colons, whitespace and quotes,
the value free of whitespace — lexes as one literal word and parses as a
single free-text term. -/
theorem parse_search_query_compilation :
    (∀ now : Int,
      parse_search_query now "from:alice has:attachment after:2025-01-01" =
        { from_addrs := ["alice"], has_attachment := some true,
          after_date := some 1735689600,
          original_query := "from:alice has:attachment after:2025-01-01" }) ∧
    (∀ (now : Int) (name value : String),
      opLookup (toLowerStr name) = none →
      ¬ name.data = [] →
      (∀ c ∈ name.data, isSpaceChar c = false ∧ ¬ c = ':' ∧ ¬ c = '"') →
      (∀ c ∈ value.data, isSpaceChar c = false) →
      tokenize (name ++ ":" ++ value) =
        [Token.word (name ++ ":" ++ value), Token.eof] ∧
      parse_search_query now (name ++ ":" ++ value) =
        { text_terms := [name ++ ":" ++ value],
          original_query := name ++ ":" ++ value }) := by
  constructor
  · intro now
    rfl
  · intro now name value hop hne hname hvalue
    have hdata : (name ++ ":" ++ value).data = name.data ++ ':' :: value.data := by
      simp
    have hwstop : ∀ c ∈ name.data, (! wordStopChar c) = true := by
      intro c hc
      obtain ⟨hsp, hcolon, _⟩ := hname c hc
      simp only [isSpaceChar, Bool.or_eq_false_iff, decide_eq_false_iff_not] at hsp
      simp only [wordStopChar, Bool.not_eq_true', Bool.or_eq_false_iff,
        decide_eq_false_iff_not]
      tauto
    have hval : ∀ c ∈ value.data, (! isSpaceChar c) = true := by
      intro c hc
      simp [hvalue c hc]
    have htok : tokenize (name ++ ":" ++ value) =
        [Token.word (name ++ ":" ++ value), Token.eof] := by
      unfold tokenize
      rw [hdata]
      cases hn : name.data with
      | nil => exact absurd hn hne
      | cons c0 nrest =>
        rw [hn] at hname hwstop
        have hc0 := hname c0 (List.mem_cons.mpr (Or.inl rfl))
        have e1 : List.dropWhile isSpaceChar ((c0 :: nrest) ++ ':' :: value.data) =
            c0 :: (nrest ++ ':' :: value.data) := by
          rw [List.cons_append, List.dropWhile_cons, if_neg (by simp [hc0.1])]
        have e2 : List.takeWhile (fun ch => ! wordStopChar ch)
            (c0 :: (nrest ++ ':' :: value.data)) = c0 :: nrest := by
          rw [← List.cons_append]
          exact takeWhile_append_sep ':' rfl (c0 :: nrest) value.data hwstop
        have e3 : List.dropWhile (fun ch => ! wordStopChar ch)
            (c0 :: (nrest ++ ':' :: value.data)) = ':' :: value.data := by
          rw [← List.cons_append]
          exact dropWhile_append_sep ':' rfl (c0 :: nrest) value.data hwstop
        have e6 : opLookup (toLowerStr (String.mk (c0 :: nrest))) = none := by
          rw [← hn]
          exact hop
        have e4 : List.takeWhile (fun ch => ! isSpaceChar ch) value.data =
            value.data := takeWhile_all value.data hval
        have e5 : List.dropWhile (fun ch => ! isSpaceChar ch) value.data = [] :=
          dropWhile_all value.data hval
        have hq : (c0 = '\x22') = False := eq_false hc0.2.2
        have ew : String.mk ((c0 :: nrest) ++ ':' :: value.data) =
            name ++ ":" ++ value := by
          rw [← hn, ← hdata]
        simp only [List.length_append, List.length_cons, Nat.add_succ,
          Nat.add_zero, tokenizeAux, e1, e2, e3, e4, e5, e6, ew, hq, if_false,
          eq_self_iff_true, if_true, List.dropWhile_nil]
    refine ⟨htok, ?_⟩
    unfold parse_search_query
    rw [htok]
    have hnonempty : ¬ (name ++ ":" ++ value) = "" := by
      intro h
      have : (name ++ ":" ++ value).data = [] := by rw [h]
      rw [hdata] at this
      cases name.data <;> simp at this
    simp only [List.foldl, parseStep, if_neg hnonempty]
    rfl

/-- Witness for C9's second part: `priority:high` is not an operator and
survives as one literal search term. -/
theorem parse_search_query_compilation_witness :
    tokenize "priority:high" = [Token.word "priority:high", Token.eof] ∧
    parse_search_query 0 "priority:high" =
      { text_terms := ["priority:high"], original_query := "priority:high" } :=
  parse_search_query_compilation.2 0 "priority" "high" (by decide) (by decide)
    (by decide) (by decide)

/-! ## The API façade and MCP entry points (`api.py`, `mcp_server.py`) -/

/-- `ClerkAPI.send_draft`: optional API-level policy check, then the
module-level `send_draft` (which re-checks). -/
def api_send_draft (w : SmtpWorld) (draft_id : String)
    (skip_confirmation : Bool) (dispatch : Draft → SendResult) (now : Int) :
    Except String (SendResult × SmtpWorld × Bool) :=
  match draftGet w.drafts draft_id with
  | none =>
    Except.ok (⟨false, none, some ("Draft not found: " ++ draft_id)⟩, w, false)
  | some draft =>
    if ¬ skip_confirmation then
      match check_send_allowed w.config w.limiters draft draft.account now with
      | Except.error e => Except.error e
      | Except.ok vls =>
        let w2 := { w with limiters := vls.2 }
        if ¬ vls.1.1 then
          Except.ok (⟨false, none,
            some (vls.1.2.getD "Send blocked by policy")⟩, w2, false)
        else
          send_draft w2 draft_id none dispatch now
    else
      send_draft w draft_id none dispatch now

/-- The `confirm=true` path of the `clerk_send` MCP tool: lazy token
cleanup, draft lookup, token validation, then
`api.send_draft(draft_id, skip_confirmation=True)`.  The `Option
SendResult` is `none` on the early error returns. -/
def clerk_send_step2 (w : SmtpWorld) (ts : TokenStore) (draft_id : String)
    (token : Option String) (dispatch : Draft → SendResult) (now : Int) :
    Except String (Option SendResult × SmtpWorld × TokenStore × Bool) :=
  let ts2 := cleanup_expired_tokens ts now
  match draftGet w.drafts draft_id with
  | none => Except.ok (none, w, ts2, false)
  | some _ =>
    let tok := token.getD ""
    if tok = "" then Except.ok (none, w, ts2, false)
    else
      let v := validate_confirmation_token ts2 draft_id tok now
      if ¬ v.1.1 then Except.ok (none, w, v.2, false)
      else
        match api_send_draft w draft_id true dispatch now with
        | Except.error e => Except.error e
        | Except.ok rwd => Except.ok (some rwd.1, rwd.2.1, v.2, rwd.2.2)

/-! ## Claim C10: dispatch only behind a passed safety gate -/

/-- C10: on every entry path — the module-level `send_draft`, the API
`send_draft` (including `skip_confirmation=True`), and the MCP
`clerk_send` confirmed step — SMTP dispatch happens only in a call where
`check_send_allowed` was evaluated and returned ok for the dispatched
draft, on the state of the dispatching call (whose config and draft table
are those of the entry call). -/
theorem dispatch_requires_gate :
    (∀ (w : SmtpWorld) (draft_id : String) (account : Option String)
      (dispatch : Draft → SendResult) (now : Int) (res : SendResult)
      (w' : SmtpWorld) (disp : Bool),
      send_draft w draft_id account dispatch now = Except.ok (res, w', disp) →
      disp = true →
      ∃ (draft : Draft) (name : String) (acct : AccountConfig)
        (reason : Option String) (ls : LimiterMap),
        draftGet w.drafts draft_id = some draft ∧
        w.config.get_account (some (account.getD draft.account)) =
          Except.ok (name, acct) ∧
        check_send_allowed w.config w.limiters draft name now =
          Except.ok ((true, reason), ls)) ∧
    (∀ (w : SmtpWorld) (draft_id : String) (skip : Bool)
      (dispatch : Draft → SendResult) (now : Int) (res : SendResult)
      (w' : SmtpWorld) (disp : Bool),
      api_send_draft w draft_id skip dispatch now = Except.ok (res, w', disp) →
      disp = true →
      ∃ (w0 : SmtpWorld) (draft : Draft) (name : String) (acct : AccountConfig)
        (reason : Option String) (ls : LimiterMap),
        w0.config = w.config ∧ w0.drafts = w.drafts ∧
        draftGet w0.drafts draft_id = some draft ∧
        w0.config.get_account (some draft.account) = Except.ok (name, acct) ∧
        check_send_allowed w0.config w0.limiters draft name now =
          Except.ok ((true, reason), ls)) ∧
    (∀ (w : SmtpWorld) (ts : TokenStore) (draft_id : String)
      (token : Option String) (dispatch : Draft → SendResult) (now : Int)
      (res : Option SendResult) (w' : SmtpWorld) (ts' : TokenStore)
      (disp : Bool),
      clerk_send_step2 w ts draft_id token dispatch now =
        Except.ok (res, w', ts', disp) →
      disp = true →
      ∃ (w0 : SmtpWorld) (draft : Draft) (name : String) (acct : AccountConfig)
        (reason : Option String) (ls : LimiterMap),
        w0.config = w.config ∧ w0.drafts = w.drafts ∧
        draftGet w0.drafts draft_id = some draft ∧
        w0.config.get_account (some draft.account) = Except.ok (name, acct) ∧
        check_send_allowed w0.config w0.limiters draft name now =
          Except.ok ((true, reason), ls)) := by
  have h1 : ∀ (w : SmtpWorld) (draft_id : String) (account : Option String)
      (dispatch : Draft → SendResult) (now : Int) (res : SendResult)
      (w' : SmtpWorld) (disp : Bool),
      send_draft w draft_id account dispatch now = Except.ok (res, w', disp) →
      disp = true →
      ∃ (draft : Draft) (name : String) (acct : AccountConfig)
        (reason : Option String) (ls : LimiterMap),
        draftGet w.drafts draft_id = some draft ∧
        w.config.get_account (some (account.getD draft.account)) =
          Except.ok (name, acct) ∧
        check_send_allowed w.config w.limiters draft name now =
          Except.ok ((true, reason), ls) := by
    intro w draft_id account dispatch now res w' disp hok hdisp
    subst hdisp
    unfold send_draft at hok
    cases hd : draftGet w.drafts draft_id with
    | none =>
      simp only [hd] at hok
      exact absurd (Prod.mk.inj (Prod.mk.inj (Except.ok.inj hok)).2).2 (by simp)
    | some draft =>
      simp only [hd] at hok
      cases hacct : w.config.get_account (some (account.getD draft.account)) with
      | error e =>
        simp only [hacct] at hok
        exact absurd (Prod.mk.inj (Prod.mk.inj (Except.ok.inj hok)).2).2 (by simp)
      | ok pa =>
        obtain ⟨pname, pacct⟩ := pa
        simp only [hacct] at hok
        cases hchk : check_send_allowed w.config w.limiters draft pname now with
        | error e =>
          simp only [hchk] at hok
          cases hok
        | ok vls =>
          obtain ⟨⟨allowed, err⟩, ls⟩ := vls
          simp only [hchk] at hok
          cases allowed with
          | true => exact ⟨draft, pname, pacct, err, ls, rfl, hacct, hchk⟩
          | false =>
            simp only [Bool.not_false, if_true] at hok
            exact absurd (Prod.mk.inj (Prod.mk.inj (Except.ok.inj hok)).2).2
              (by simp)
  have h2 : ∀ (w : SmtpWorld) (draft_id : String) (skip : Bool)
      (dispatch : Draft → SendResult) (now : Int) (res : SendResult)
      (w' : SmtpWorld) (disp : Bool),
      api_send_draft w draft_id skip dispatch now = Except.ok (res, w', disp) →
      disp = true →
      ∃ (w0 : SmtpWorld) (draft : Draft) (name : String) (acct : AccountConfig)
        (reason : Option String) (ls : LimiterMap),
        w0.config = w.config ∧ w0.drafts = w.drafts ∧
        draftGet w0.drafts draft_id = some draft ∧
        w0.config.get_account (some draft.account) = Except.ok (name, acct) ∧
        check_send_allowed w0.config w0.limiters draft name now =
          Except.ok ((true, reason), ls) := by
    intro w draft_id skip dispatch now res w' disp hok hdisp
    unfold api_send_draft at hok
    cases hd : draftGet w.drafts draft_id with
    | none =>
      simp only [hd] at hok
      subst hdisp
      exact absurd (Prod.mk.inj (Prod.mk.inj (Except.ok.inj hok)).2).2 (by simp)
    | some draft =>
      simp only [hd] at hok
      cases skip with
      | true =>
        rw [if_neg (by simp)] at hok
        obtain ⟨draft2, name, acct, reason, ls, hga, hgacct, hgchk⟩ :=
          h1 w draft_id none dispatch now res w' disp hok hdisp
        exact ⟨w, draft2, name, acct, reason, ls, rfl, rfl, hga, hgacct, hgchk⟩
      | false =>
        rw [if_pos (by simp)] at hok
        cases hchk : check_send_allowed w.config w.limiters draft
            draft.account now with
        | error e =>
          simp only [hchk] at hok
          cases hok
        | ok vls =>
          obtain ⟨⟨allowed, err⟩, ls⟩ := vls
          simp only [hchk] at hok
          cases allowed with
          | true =>
            rw [if_neg (by simp)] at hok
            obtain ⟨draft2, name, acct, reason, ls2, hga, hgacct, hgchk⟩ :=
              h1 { w with limiters := ls } draft_id none dispatch now
                res w' disp hok hdisp
            exact ⟨{ w with limiters := ls }, draft2, name, acct, reason, ls2,
              rfl, rfl, hga, hgacct, hgchk⟩
          | false =>
            rw [if_pos (by simp)] at hok
            subst hdisp
            exact absurd (Prod.mk.inj (Prod.mk.inj (Except.ok.inj hok)).2).2
              (by simp)
  refine ⟨h1, h2, ?_⟩
  intro w ts draft_id token dispatch now res w' ts' disp hok hdisp
  unfold clerk_send_step2 at hok
  cases hd : draftGet w.drafts draft_id with
  | none =>
    simp only [hd] at hok
    subst hdisp
    exact absurd (Prod.mk.inj (Prod.mk.inj
      (Prod.mk.inj (Except.ok.inj hok)).2).2).2 (by simp)
  | some draft =>
    simp only [hd] at hok
    by_cases htok : token.getD "" = ""
    · rw [if_pos htok] at hok
      subst hdisp
      exact absurd (Prod.mk.inj (Prod.mk.inj
        (Prod.mk.inj (Except.ok.inj hok)).2).2).2 (by simp)
    · rw [if_neg htok] at hok
      by_cases hval : (validate_confirmation_token
          (cleanup_expired_tokens ts now) draft_id (token.getD "") now).1.1 = true
      · rw [if_neg (by simp [hval])] at hok
        cases hapi : api_send_draft w draft_id true dispatch now with
        | error e =>
          simp only [hapi] at hok
          cases hok
        | ok rwd =>
          simp only [hapi] at hok
          have hdsp : rwd.2.2 = disp :=
            (Prod.mk.inj (Prod.mk.inj
              (Prod.mk.inj (Except.ok.inj hok)).2).2).2
          exact h2 w draft_id true dispatch now rwd.1 rwd.2.1 rwd.2.2
            hapi (hdsp.trans hdisp)
      · rw [if_pos (by simpa using hval)] at hok
        subst hdisp
        exact absurd (Prod.mk.inj (Prod.mk.inj
          (Prod.mk.inj (Except.ok.inj hok)).2).2).2 (by simp)

set_option maxRecDepth 4000 in
/-- Witness for C10: a full confirmed MCP send on a concrete world does
dispatch, and the theorem yields the passed gate evaluation. -/
theorem dispatch_requires_gate_witness :
    ∃ (w0 : SmtpWorld) (draft : Draft) (name : String) (acct : AccountConfig)
      (reason : Option String) (ls : LimiterMap),
      w0.config = worldW.config ∧ w0.drafts = worldW.drafts ∧
      draftGet w0.drafts "draft_1" = some draft ∧
      w0.config.get_account (some draft.account) = Except.ok (name, acct) ∧
      check_send_allowed w0.config w0.limiters draft name 0 =
        Except.ok ((true, reason), ls) :=
  dispatch_requires_gate.2.2 worldW
    (generate_confirmation_token [] "draft_1" "tok1" 0).2 "draft_1"
    (some "tok1") dispatchOk 0 _ _ _ _ rfl rfl

end Clerk
